import Mathlib

/-
Verification of the RetroArch playlist module (src/playlist.c).

The development shallowly embeds the playlist data model and the operations
referenced by the claims: playlist_path_equal, playlist_core_path_equal,
playlist_push, playlist_push_runtime, playlist_qsort, playlist_index_is_valid,
and the structured-format (JSON) writer/reader pair
(playlist_write_file / playlist_read_file).

C strings (char pointers) that may be NULL are embedded as Option String
(none = NULL); stack buffers are plain String with "" for the empty buffer.
The external collaborators that playlist.c calls but does not define
(the canonical-path resolver path_resolve_realpath, the compressed-archive
detector path_is_compressed_file, the archive-delimiter locator
path_get_archive_delim, path_basename, fill_pathname_base_noext, and the
core-identity comparator) are abstracted as a record of functions (PathEnv);
the structured-data tokenizer/serializer is abstracted as a stream of parse
events (JEvent), exactly the callbacks jsonsax_full delivers to the handlers
defined in playlist.c.  The build configuration embedded is the standard one:
RARCH_INTERNAL defined, non-Windows (case-sensitive string comparison).
-/

namespace RetroPlaylist

/-- string_is_empty from libretro-common: NULL or first byte NUL. -/
def string_is_empty : Option String → Bool
  | none => true
  | some s => s == ""

/-- Writer-side view of a possibly NULL string: `p ? p : ""`. -/
def optStr : Option String → String
  | none => ""
  | some s => s

/-- string_is_equal from libretro-common on two possibly NULL strings:
false whenever either side is NULL, else strcmp equality. -/
def optStrEq : Option String → Option String → Bool
  | some a, some b => a == b
  | _, _ => false

/-- Character-level prefix of a string (strlcpy with a size bound). -/
def strTake (s : String) (n : Nat) : String := String.mk (s.toList.take n)

/-- Decimal value of a digit list, most significant first. -/
def natOfDigits : List Char → Nat :=
  List.foldl (fun n c => n * 10 + (c.toNat - 48)) 0

/-- strtoul with base 10: value of the leading decimal digits (the values
produced by the writer are pure digit strings). -/
def strtoulDec (s : String) : Nat :=
  natOfDigits (s.toList.takeWhile Char.isDigit)

/-- snprintf of an unsigned value into a 4-byte buffer: at most 3 digits
survive truncation. -/
def natStr3 (n : Nat) : String := strTake (toString n) 3

/-- Segment of a character list after its last slash. -/
def afterLastSlash (l : List Char) : List Char :=
  l.foldl (fun acc c => if c == '/' then [] else acc ++ [c]) []

/-- Removal of the extension (everything from the last dot) of a character
list; a list without a dot is returned unchanged. -/
def stripLastExt (l : List Char) : List Char :=
  match l.reverse.dropWhile (fun c => !(c == '.')) with
  | [] => l
  | _ :: rest => rest.reverse

/-- FILE_PATH_DETECT sentinel from file_path_special.h. -/
def FILE_PATH_DETECT : String := "DETECT"

/-- FILE_PATH_BUILTIN sentinel from file_path_special.h. -/
def FILE_PATH_BUILTIN : String := "builtin"

/-- PLAYLIST_SORT_MODE_DEFAULT enum value. -/
def PLAYLIST_SORT_MODE_DEFAULT : Nat := 0

/-- PLAYLIST_SORT_MODE_ALPHABETICAL enum value. -/
def PLAYLIST_SORT_MODE_ALPHABETICAL : Nat := 1

/-- PLAYLIST_SORT_MODE_OFF enum value. -/
def PLAYLIST_SORT_MODE_OFF : Nat := 2

/-- struct playlist_entry from playlist.h.  Optional C strings are Option
String; the subsystem ROM string_list is Option (List String) (none = NULL
pointer); runtime/timestamp counters are Nat. -/
structure Entry where
  path : Option String := none
  label : Option String := none
  core_path : Option String := none
  core_name : Option String := none
  db_name : Option String := none
  crc32 : Option String := none
  subsystem_ident : Option String := none
  subsystem_name : Option String := none
  subsystem_roms : Option (List String) := none
  runtime_status : Nat := 0
  runtime_hours : Nat := 0
  runtime_minutes : Nat := 0
  runtime_seconds : Nat := 0
  last_played_year : Nat := 0
  last_played_month : Nat := 0
  last_played_day : Nat := 0
  last_played_hour : Nat := 0
  last_played_minute : Nat := 0
  last_played_second : Nat := 0
  runtime_str : Option String := none
  last_played_str : Option String := none
deriving DecidableEq, Inhabited

/-- playlist_config_t from playlist.h. -/
structure Config where
  path : String := ""
  base_content_directory : String := ""
  capacity : Nat := 0
  old_format : Bool := false
  compress : Bool := false
  fuzzy_archive_match : Bool := false
  autofix_paths : Bool := false
deriving DecidableEq, Inhabited

/-- struct content_playlist from playlist.c.  The label/thumbnail/sort display
mode enums are embedded as Nat. -/
structure Playlist where
  default_core_path : Option String := none
  default_core_name : Option String := none
  base_content_directory : Option String := none
  entries : List Entry := []
  config : Config := {}
  label_display_mode : Nat := 0
  right_thumbnail_mode : Nat := 0
  left_thumbnail_mode : Nat := 0
  sort_mode : Nat := 0
  modified : Bool := false
  old_format : Bool := false
  compressed : Bool := false
  cached_external : Bool := false
deriving DecidableEq, Inhabited

/-- External collaborator interfaces consumed by playlist.c (spec section 6):
the canonical-path resolver, compressed-archive detector, archive-delimiter
locator (returning the character position of the delimiter), filename
extraction helpers, and the core-identity comparator. -/
structure PathEnv where
  resolve : String → String
  is_compressed_file : String → Bool
  archive_delim : String → Option Nat
  basename : String → String
  basename_noext : String → String
  core_file_id_equal : String → String → Bool

/-- Modelled from the spec: a concrete instance of the external path
collaborators (sections 4.1 and 6), used to instantiate witnesses.  The
resolver is the identity (spec 4.1: resolution of a non-existing path
returns the input unchanged); the archive detector keys on the .zip/.7z
extensions; the delimiter locator returns the position of the first '#'
character; basename is the component after the last '/'; basename_noext
additionally strips the extension. -/
def stdEnv : PathEnv :=
  { resolve := id
    is_compressed_file := fun s =>
      List.isSuffixOf ".zip".toList s.toList || List.isSuffixOf ".7z".toList s.toList
    archive_delim := fun s => s.toList.findIdx? (fun c => c == '#')
    basename := fun s => String.mk (afterLastSlash s.toList)
    basename_noext := fun s => String.mk (stripLastExt (afterLastSlash s.toList))
    core_file_id_equal := fun a b => a == b }

/-- playlist_path_equal (playlist.c lines 229-311), non-Windows build:
sanity checks, resolution of the entry path, direct comparison, then the
fuzzy compressed-archive comparison (prefix of the archive+innerpath form
up to the archive delimiter against the archive-only side). -/
def playlist_path_equal (env : PathEnv) (real_path : String)
    (entry_path : Option String) (config : Config) : Bool :=
  if real_path == "" || string_is_empty entry_path then false
  else
    let entry_real_path := env.resolve (optStr entry_path)
    if entry_real_path == "" then false
    else if real_path == entry_real_path then true
    else if !config.fuzzy_archive_match then false
    else
      let real_path_is_compressed := env.is_compressed_file real_path
      let entry_real_path_is_compressed := env.is_compressed_file entry_real_path
      if (real_path_is_compressed && !entry_real_path_is_compressed) ||
         (!real_path_is_compressed && entry_real_path_is_compressed) then
        let compressed_path_a :=
          if real_path_is_compressed then real_path else entry_real_path
        let full_path :=
          if real_path_is_compressed then entry_real_path else real_path
        match env.archive_delim full_path with
        | some d => compressed_path_a == strTake full_path d
        | none => false
      else false

/-- playlist_core_path_equal (playlist.c lines 323-356), non-Windows build:
the entry core path is resolved unless it is one of the two sentinels; a
direct comparison, then the autofix core-identity fallback. -/
def playlist_core_path_equal (env : PathEnv) (real_core_path : String)
    (entry_core_path : Option String) (config : Config) : Bool :=
  if real_core_path == "" || string_is_empty entry_core_path then false
  else
    let ecp := optStr entry_core_path
    let entry_real_core_path :=
      if ecp == FILE_PATH_DETECT || ecp == FILE_PATH_BUILTIN then ecp
      else env.resolve ecp
    if entry_real_core_path == "" then false
    else if real_core_path == entry_real_core_path then true
    else if config.autofix_paths && env.core_file_id_equal real_core_path ecp then true
    else false

/-- Normalisation of the pushed entry content path performed at the top of
playlist_push / playlist_push_runtime: empty stays the empty buffer, else
the path is resolved. -/
def pushRealPath (env : PathEnv) (e : Entry) : String :=
  if string_is_empty e.path then "" else env.resolve (optStr e.path)

/-- Normalisation of the pushed entry core path performed at the top of
playlist_push / playlist_push_runtime: the two sentinels are kept verbatim,
anything else is resolved. -/
def pushRealCorePath (env : PathEnv) (e : Entry) : String :=
  let cp := optStr e.core_path
  if cp == FILE_PATH_DETECT || cp == FILE_PATH_BUILTIN then cp
  else env.resolve cp

/-- Core display name selected by playlist_push (playlist.c lines 960-971):
the pushed entry's own name, or the filename of the resolved core path when
absent. -/
def coreNameOf (env : PathEnv) (e : Entry) : String :=
  if string_is_empty e.core_name then env.basename_noext (pushRealCorePath env e)
  else optStr e.core_name

/-- Content-path comparison used inside the scan loops of playlist_push and
playlist_push_runtime: both sides empty, or playlist_path_equal. -/
def pathsEqualForPush (env : PathEnv) (config : Config) (real_path : String)
    (entry_path : Option String) : Bool :=
  (real_path == "" && string_is_empty entry_path) ||
    playlist_path_equal env real_path entry_path config

/-- Subsystem ident/name agreement checked by the playlist_push scan loop
(the three continue conditions at playlist.c lines 990-1014 negated):
both sides empty, or both non-empty and equal. -/
def subsysMatch (stored pushed : Option String) : Bool :=
  !(!string_is_empty pushed && !string_is_empty stored && !optStrEq stored pushed) &&
  !(string_is_empty pushed && !string_is_empty stored) &&
  !(!string_is_empty pushed && string_is_empty stored)

/-- Subsystem ROM list agreement checked by the playlist_push scan loop
(playlist.c lines 1016-1047): only performed when the pushed entry carries a
ROM list; sizes must agree and each pushed ROM (resolved) must
playlist_path_equal the stored ROM. -/
def romsMatch (env : PathEnv) (config : Config)
    (pushed stored : Option (List String)) : Bool :=
  match pushed with
  | none => true
  | some el =>
      let sl := stored.getD []
      el.length == sl.length &&
        (el.zip sl).all fun rr =>
          let real_rom_path := if rr.1 == "" then "" else env.resolve rr.1
          playlist_path_equal env real_rom_path (some rr.2) config

/-- Full match predicate of the playlist_push scan loop for one stored
entry. -/
def pushEntryMatch (env : PathEnv) (config : Config)
    (real_path real_core_path : String) (e stored : Entry) : Bool :=
  pathsEqualForPush env config real_path stored.path &&
  playlist_core_path_equal env real_core_path stored.core_path config &&
  subsysMatch stored.subsystem_ident e.subsystem_ident &&
  subsysMatch stored.subsystem_name e.subsystem_name &&
  romsMatch env config e.subsystem_roms stored.subsystem_roms

/-- Match predicate of the playlist_push_runtime scan loop: content path and
core path only. -/
def pushRuntimeMatch (env : PathEnv) (config : Config)
    (real_path real_core_path : String) (stored : Entry) : Bool :=
  pathsEqualForPush env config real_path stored.path &&
  playlist_core_path_equal env real_core_path stored.core_path config

/-- Backfill of empty label/crc32/db_name fields of a matched stored entry
from the pushed entry (playlist.c lines 1053-1067).  Returns the updated
entry and the entry_updated flag. -/
def backfillEntry (e stored : Entry) : Entry × Bool :=
  let u1 := stored.label == none && !string_is_empty e.label
  let u2 := stored.crc32 == none && !string_is_empty e.crc32
  let u3 := stored.db_name == none && !string_is_empty e.db_name
  ({ stored with
      label := if u1 then e.label else stored.label
      crc32 := if u2 then e.crc32 else stored.crc32
      db_name := if u3 then e.db_name else stored.db_name },
   u1 || u2 || u3)

/-- Construction of the freshly inserted entry in playlist_push (lines
1110-1156): only non-empty strings are duplicated, the subsystem ROM list is
deep-copied, runtime fields are zeroed. -/
def pushNewEntry (e : Entry) (real_path real_core_path core_name : String) : Entry :=
  { path := if real_path == "" then none else some real_path
    label := if string_is_empty e.label then none else e.label
    core_path := if real_core_path == "" then none else some real_core_path
    core_name := if core_name == "" then none else some core_name
    db_name := if string_is_empty e.db_name then none else e.db_name
    crc32 := if string_is_empty e.crc32 then none else e.crc32
    subsystem_ident := if string_is_empty e.subsystem_ident then none else e.subsystem_ident
    subsystem_name := if string_is_empty e.subsystem_name then none else e.subsystem_name
    subsystem_roms := e.subsystem_roms }

/-- Construction of the freshly inserted entry in playlist_push_runtime
(lines 830-861): path and core path plus the runtime/timestamp payload. -/
def pushNewRuntimeEntry (e : Entry) (real_path real_core_path : String) : Entry :=
  { path := if real_path == "" then none else some real_path
    core_path := if real_core_path == "" then none else some real_core_path
    runtime_status := e.runtime_status
    runtime_hours := e.runtime_hours
    runtime_minutes := e.runtime_minutes
    runtime_seconds := e.runtime_seconds
    last_played_year := e.last_played_year
    last_played_month := e.last_played_month
    last_played_day := e.last_played_day
    last_played_hour := e.last_played_hour
    last_played_minute := e.last_played_minute
    last_played_second := e.last_played_second
    runtime_str := if string_is_empty e.runtime_str then none else e.runtime_str
    last_played_str := if string_is_empty e.last_played_str then none else e.last_played_str }

/-- Absence of any applicable backfill: whenever a backfillable field of the
stored entry is NULL, the pushed entry offers nothing for it. -/
def noBackfillFor (e s : Entry) : Prop :=
  (s.label = none → string_is_empty e.label = true) ∧
  (s.crc32 = none → string_is_empty e.crc32 = true) ∧
  (s.db_name = none → string_is_empty e.db_name = true)

/-- Scan of the entry array for the first match, returning the entries
before the match, the matched entry and the entries after it (the index of
the C loop is the length of the first component). -/
def findSplit (p : α → Bool) : List α → Option (List α × α × List α)
  | [] => none
  | x :: xs =>
      if p x then some ([], x, xs)
      else (findSplit p xs).map fun pr => (x :: pr.1, pr.2.1, pr.2.2)

/-- playlist_push (playlist.c lines 919-1163).  Returns the C boolean result
together with the post-state.  Stages: required-argument guards, path
normalisation, core-name derivation, the scan loop (match: backfill, front
or move-to-front), and the no-match insertion with capacity-0 failure and
at-capacity eviction of the last entry before the front insert. -/
def playlist_push (env : PathEnv) (pl : Playlist) (e : Entry) : Bool × Playlist :=
  if string_is_empty e.core_path then (false, pl)
  else
    let real_path := pushRealPath env e
    let real_core_path := pushRealCorePath env e
    if real_core_path == "" then (false, pl)
    else
      let core_name := coreNameOf env e
      if core_name == "" then (false, pl)
      else
        match findSplit (pushEntryMatch env pl.config real_path real_core_path e) pl.entries with
        | some ([], stored, suf) =>
            let bs := backfillEntry e stored
            if bs.2 then (true, { pl with entries := bs.1 :: suf, modified := true })
            else (false, pl)
        | some (q :: pre, stored, suf) =>
            let bs := backfillEntry e stored
            (true, { pl with entries := bs.1 :: ((q :: pre) ++ suf), modified := true })
        | none =>
            if pl.config.capacity = 0 then (false, pl)
            else
              let len := pl.entries.length
              let base :=
                if len = pl.config.capacity then pl.entries.take (len - 1)
                else pl.entries
              (true, { pl with
                  entries := pushNewEntry e real_path real_core_path core_name :: base,
                  modified := true })

/-- playlist_push_runtime (playlist.c lines 744-867): same structure as
playlist_push, matching on content path and core path only, with no
backfill (a match at the front returns false without modification). -/
def playlist_push_runtime (env : PathEnv) (pl : Playlist) (e : Entry) : Bool × Playlist :=
  if string_is_empty e.core_path then (false, pl)
  else
    let real_path := pushRealPath env e
    let real_core_path := pushRealCorePath env e
    if real_core_path == "" then (false, pl)
    else
      match findSplit (pushRuntimeMatch env pl.config real_path real_core_path) pl.entries with
      | some ([], _, _) => (false, pl)
      | some (q :: pre, stored, suf) =>
          (true, { pl with entries := stored :: ((q :: pre) ++ suf), modified := true })
      | none =>
          if pl.config.capacity = 0 then (false, pl)
          else
            let len := pl.entries.length
            let base :=
              if len = pl.config.capacity then pl.entries.take (len - 1)
              else pl.entries
            (true, { pl with
                entries := pushNewRuntimeEntry e real_path real_core_path :: base,
                modified := true })

/-- playlist_qsort (playlist.c lines 2884-2896): a no-op when the sort mode
is PLAYLIST_SORT_MODE_OFF or the entry buffer is NULL; otherwise the entry
array is permuted by the platform qsort with playlist_qsort_func, abstracted
here as an arbitrary rearrangement function. -/
def playlist_qsort (qsortImpl : List Entry → List Entry) (pl : Playlist) : Playlist :=
  if pl.sort_mode == PLAYLIST_SORT_MODE_OFF || pl.entries.isEmpty then pl
  else { pl with entries := qsortImpl pl.entries }

/-- playlist_index_is_valid (playlist.c lines 2927-2938): range check, exact
string_is_equal on the stored content path, and string_is_equal of the
path_basename of both core paths. -/
def playlist_index_is_valid (env : PathEnv) (pl : Playlist) (idx : Nat)
    (path core_path : String) : Bool :=
  if h : idx < pl.entries.length then
    let s := pl.entries.get ⟨idx, h⟩
    (s.path == some path) &&
      (env.basename (optStr s.core_path) == env.basename core_path)
  else false

/-- ASCII lower-casing of one character (tolower). -/
def toLowerCh (c : Char) : Char :=
  if 'A' ≤ c ∧ c ≤ 'Z' then Char.ofNat (c.toNat + 32) else c

/-- ASCII lower-casing of a string, used to express the claimed
case-insensitive comparison. -/
def toLowerStr (s : String) : String := String.mk (s.toList.map toLowerCh)

/-- Modelled from the spec: the behaviour the claim attributes to
index_is_valid, with the core filename comparison performed
case-insensitively.  Written from the claim text for refutation. -/
def index_is_valid_claimed (env : PathEnv) (pl : Playlist) (idx : Nat)
    (path core_path : String) : Bool :=
  if h : idx < pl.entries.length then
    let s := pl.entries.get ⟨idx, h⟩
    (s.path == some path) &&
      (toLowerStr (env.basename (optStr s.core_path)) == toLowerStr (env.basename core_path))
  else false

/-- Parse/write events of the external JSON tokenizer/serializer
(jsonsax_full), exactly the callback alphabet used by playlist.c: start/end
object, start/end array, object member name, string value, number value. -/
inductive JEvent where
  | startObject
  | endObject
  | startArray
  | endArray
  | objectMember (s : String)
  | stringVal (s : String)
  | numberVal (s : String)
deriving DecidableEq, Inhabited

/-- Per-entry string-field slots targeted by the reader
(current_entry_val in JSONContext). -/
inductive EntStrField where
  | fpath | flabel | fcore_path | fcore_name | fcrc32 | fdb_name
  | fsubsystem_ident | fsubsystem_name
deriving DecidableEq, Inhabited

/-- Per-entry unsigned-field slots targeted by the reader
(current_entry_uint_val in JSONContext). -/
inductive EntNumField where
  | fruntime_hours | fruntime_minutes | fruntime_seconds
  | flp_year | flp_month | flp_day | flp_hour | flp_minute | flp_second
deriving DecidableEq, Inhabited

/-- Top-level metadata string slots targeted by the reader
(current_meta_val in JSONContext). -/
inductive MetaStrField where
  | fdefault_core_path | fdefault_core_name | fbase_content_directory
deriving DecidableEq, Inhabited

/-- Write-through of a string value into the selected entry field
(*pCtx->current_entry_val = strdup(pValue)). -/
def setEntStr (f : EntStrField) (v : String) (e : Entry) : Entry :=
  match f with
  | .fpath => { e with path := some v }
  | .flabel => { e with label := some v }
  | .fcore_path => { e with core_path := some v }
  | .fcore_name => { e with core_name := some v }
  | .fcrc32 => { e with crc32 := some v }
  | .fdb_name => { e with db_name := some v }
  | .fsubsystem_ident => { e with subsystem_ident := some v }
  | .fsubsystem_name => { e with subsystem_name := some v }

/-- Write-through of a number value into the selected entry field
(*pCtx->current_entry_uint_val = strtoul(pValue, NULL, 10)). -/
def setEntNum (f : EntNumField) (v : Nat) (e : Entry) : Entry :=
  match f with
  | .fruntime_hours => { e with runtime_hours := v }
  | .fruntime_minutes => { e with runtime_minutes := v }
  | .fruntime_seconds => { e with runtime_seconds := v }
  | .flp_year => { e with last_played_year := v }
  | .flp_month => { e with last_played_month := v }
  | .flp_day => { e with last_played_day := v }
  | .flp_hour => { e with last_played_hour := v }
  | .flp_minute => { e with last_played_minute := v }
  | .flp_second => { e with last_played_second := v }

/-- Write-through of a string value into the selected playlist metadata
field (*pCtx->current_meta_val = strdup(pValue)). -/
def setMetaStr (m : MetaStrField) (v : String) (pl : Playlist) : Playlist :=
  match m with
  | .fdefault_core_path => { pl with default_core_path := some v }
  | .fdefault_core_name => { pl with default_core_name := some v }
  | .fbase_content_directory => { pl with base_content_directory := some v }

/-- Entry string-field member-name vocabulary of JSONObjectMemberHandler
(exact match: path, label, core_path, core_name, crc32, db_name,
subsystem_ident, subsystem_name). -/
def entryStrKey (s : String) : Option EntStrField :=
  if s == "path" then some .fpath
  else if s == "label" then some .flabel
  else if s == "core_path" then some .fcore_path
  else if s == "core_name" then some .fcore_name
  else if s == "crc32" then some .fcrc32
  else if s == "db_name" then some .fdb_name
  else if s == "subsystem_ident" then some .fsubsystem_ident
  else if s == "subsystem_name" then some .fsubsystem_name
  else none

/-- Entry unsigned-field member-name vocabulary of JSONObjectMemberHandler
(runtime_* and last_played_* names). -/
def entryUintKey (s : String) : Option EntNumField :=
  if s == "runtime_hours" then some .fruntime_hours
  else if s == "runtime_minutes" then some .fruntime_minutes
  else if s == "runtime_seconds" then some .fruntime_seconds
  else if s == "last_played_year" then some .flp_year
  else if s == "last_played_month" then some .flp_month
  else if s == "last_played_day" then some .flp_day
  else if s == "last_played_hour" then some .flp_hour
  else if s == "last_played_minute" then some .flp_minute
  else if s == "last_played_second" then some .flp_second
  else none

/-- Top-level metadata string member-name vocabulary of
JSONObjectMemberHandler. -/
def metaStrKey (s : String) : Option MetaStrField :=
  if s == "default_core_path" then some .fdefault_core_path
  else if s == "default_core_name" then some .fdefault_core_name
  else if s == "base_content_directory" then some .fbase_content_directory
  else none

/-- JSONContext of the streaming reader (playlist.c lines 76-101) together
with the playlist being built.  Pointer targets are embedded as field
selectors; current_entry is the slot reserved by RBUF_TRYFIT and not yet
committed into the visible entry array (the thumbnail selector carries
true for the right mode and false for the left mode).  current_entry_int_val
exists in the C struct but is never assigned a target by any handler, so it
is omitted.  An aborted parse (JSON_Parser_Abort) makes the state sticky,
matching the retained partially-populated playlist. -/
structure RState where
  playlist : Playlist
  current_entry : Option Entry := none
  current_meta_string : Option String := none
  current_items_string : Option String := none
  current_entry_val : Option EntStrField := none
  current_entry_uint_val : Option EntNumField := none
  current_entry_string_list_sel : Bool := false
  current_meta_val : Option MetaStrField := none
  meta_ldm_sel : Bool := false
  meta_thumb_sel : Option Bool := none
  meta_sort_sel : Bool := false
  array_depth : Nat := 0
  object_depth : Nat := 0
  in_items : Bool := false
  in_subsystem_roms : Bool := false
  capacity_exceeded : Bool := false
  aborted : Bool := false
deriving DecidableEq, Inhabited

/-- Update of the reserved entry slot through the current field pointer. -/
def modifyCur (st : RState) (f : Entry → Entry) : RState :=
  { st with current_entry := st.current_entry.map f }

/-- JSONStartArrayHandler (playlist.c lines 1954-1973). -/
def handleStartArray (st : RState) : RState :=
  let st := { st with array_depth := st.array_depth + 1 }
  if st.object_depth == 1 then
    if st.current_meta_string == some "items" && st.array_depth == 1 then
      { st with in_items := true }
    else st
  else if st.object_depth == 2 then
    if st.array_depth == 2 && st.current_items_string == some "subsystem_roms" then
      { st with in_subsystem_roms := true }
    else st
  else st

/-- JSONEndArrayHandler (playlist.c lines 1975-2005): the depth counter is
decremented before the cleanup conditions are evaluated. -/
def handleEndArray (st : RState) : RState :=
  let st := { st with array_depth := st.array_depth - 1 }
  if st.object_depth == 1 then
    if st.in_items && st.current_meta_string == some "items" && st.array_depth == 0 then
      { st with current_meta_string := none, in_items := false,
                current_items_string := none }
    else st
  else if st.object_depth == 2 then
    if st.in_subsystem_roms && st.current_items_string == some "subsystem_roms" &&
        st.array_depth == 1 then
      { st with in_subsystem_roms := false }
    else st
  else st

/-- JSONStartObjectHandler (playlist.c lines 2007-2048): below capacity a
fresh zeroed slot is reserved (RBUF_TRYFIT without RBUF_RESIZE); at capacity
the sticky capacity_exceeded flag is raised, the slot pointer cleared and
the playlist marked modified.  Allocation is assumed to succeed (allocation
failure aborts the parse and is out of scope of the embedded claims). -/
def handleStartObject (st : RState) : RState :=
  let st := { st with object_depth := st.object_depth + 1 }
  if st.in_items && st.object_depth == 2 && st.array_depth == 1 &&
      !st.capacity_exceeded then
    if st.playlist.entries.length < st.playlist.config.capacity then
      { st with current_entry := some {} }
    else
      { st with capacity_exceeded := true, current_entry := none,
                playlist := { st.playlist with modified := true } }
  else st

/-- JSONEndObjectHandler (playlist.c lines 2050-2066): the reserved slot is
committed by RBUF_RESIZE (visible length + 1) unless capacity was exceeded;
the depth counter is decremented afterwards. -/
def handleEndObject (st : RState) : RState :=
  let st :=
    if st.in_items && st.object_depth == 2 && st.array_depth == 1 &&
        !st.capacity_exceeded then
      { st with playlist :=
          { st.playlist with
              entries := st.playlist.entries ++ [st.current_entry.getD {}] } }
    else st
  { st with object_depth := st.object_depth - 1 }

/-- JSONStringHandler (playlist.c lines 2068-2123): subsystem-ROM append,
entry string field write, or top-level metadata write; the entry and meta
string targets are cleared unconditionally at the end. -/
def handleString (st : RState) (s : String) : RState :=
  let st1 :=
    if st.in_items && st.in_subsystem_roms && st.object_depth == 2 &&
        st.array_depth == 2 then
      if st.current_entry_string_list_sel && s != "" then
        modifyCur st fun e =>
          { e with subsystem_roms := some ((e.subsystem_roms.getD []) ++ [s]) }
      else st
    else if st.in_items && st.object_depth == 2 then
      if st.array_depth == 1 then
        match st.current_entry_val with
        | some f => if s != "" then modifyCur st (setEntStr f s) else st
        | none => st
      else st
    else if st.object_depth == 1 then
      if st.array_depth == 0 then
        match st.current_meta_val with
        | some m =>
            if s != "" then
              { st with current_meta_string := none,
                        playlist := setMetaStr m s st.playlist }
            else st
        | none => st
      else st
    else st
  { st1 with current_entry_val := none, current_meta_val := none }

/-- JSONNumberHandler (playlist.c lines 2125-2171): entry unsigned field
write or top-level enum metadata write (label display mode, then thumbnail
mode, then sort mode, in that priority order); the numeric targets are
cleared unconditionally at the end. -/
def handleNumber (st : RState) (s : String) : RState :=
  let st1 :=
    if st.in_items && st.object_depth == 2 then
      if st.array_depth == 1 then
        match st.current_entry_uint_val with
        | some f => if s != "" then modifyCur st (setEntNum f (strtoulDec s)) else st
        | none => st
      else st
    else if st.object_depth == 1 then
      if st.array_depth == 0 then
        if st.current_meta_string != none && s != "" then
          let st' := { st with current_meta_string := none }
          if st.meta_ldm_sel then
            { st' with playlist := { st'.playlist with label_display_mode := strtoulDec s } }
          else if st.meta_thumb_sel == some true then
            { st' with playlist := { st'.playlist with right_thumbnail_mode := strtoulDec s } }
          else if st.meta_thumb_sel == some false then
            { st' with playlist := { st'.playlist with left_thumbnail_mode := strtoulDec s } }
          else if st.meta_sort_sel then
            { st' with playlist := { st'.playlist with sort_mode := strtoulDec s } }
          else st'
        else st
      else st
    else st
  { st1 with current_entry_uint_val := none, meta_ldm_sel := false,
             meta_thumb_sel := none, meta_sort_sel := false }

/-- JSONObjectMemberHandler (playlist.c lines 2173-2292): aborts when a
pending string target was never consumed; otherwise records the member name
and selects the matching slot by exact-name dispatch (an unrecognised name
selects nothing); when capacity is exceeded all entry targets are forced
clear. -/
def handleMember (st : RState) (s : String) : RState :=
  if st.in_items && st.object_depth == 2 then
    if st.array_depth == 1 then
      if st.current_entry_val != none then { st with aborted := true }
      else if s == "" then st
      else
        let st := { st with current_items_string := some s }
        if !st.capacity_exceeded then
          match entryStrKey s with
          | some f => { st with current_entry_val := some f }
          | none =>
              if s == "subsystem_roms" then
                { st with current_entry_string_list_sel := true }
              else
                match entryUintKey s with
                | some f => { st with current_entry_uint_val := some f }
                | none => st
        else
          { st with current_entry_val := none, current_entry_uint_val := none,
                    current_entry_string_list_sel := false }
    else st
  else if st.object_depth == 1 then
    if st.array_depth == 0 then
      if st.current_meta_val != none then { st with aborted := true }
      else if s == "" then st
      else
        let st := { st with current_meta_string := some s }
        match metaStrKey s with
        | some m => { st with current_meta_val := some m }
        | none =>
            if s == "label_display_mode" then { st with meta_ldm_sel := true }
            else if s == "right_thumbnail_mode" then { st with meta_thumb_sel := some true }
            else if s == "left_thumbnail_mode" then { st with meta_thumb_sel := some false }
            else if s == "sort_mode" then { st with meta_sort_sel := true }
            else st
    else st
  else st

/-- Dispatch of one parse event to the matching handler; after an abort the
state is retained unchanged (the parser delivers no further callbacks). -/
def rstep (st : RState) (ev : JEvent) : RState :=
  if st.aborted then st
  else
    match ev with
    | .startObject => handleStartObject st
    | .endObject => handleEndObject st
    | .startArray => handleStartArray st
    | .endArray => handleEndArray st
    | .objectMember s => handleMember st s
    | .stringVal s => handleString st s
    | .numberVal s => handleNumber st s

/-- Processing of a stream of parse events. -/
def processEvents (st : RState) : List JEvent → RState :=
  List.foldl rstep st

/-- Fresh playlist produced by playlist_init before reading (playlist.c
lines 2704-2726): empty entry array, default display modes, copied
configuration. -/
def initialPlaylist (cfg : Config) : Playlist := { config := cfg }

/-- playlist_read_file (playlist.c lines 2313-2660), structured-format
branch: the file is fed to the JSON parser, whose callbacks build the
playlist starting from the zeroed JSONContext.  A file produced by the
structured-format writer starts with the byte of an opening brace, so format
detection selects this branch. -/
def playlist_read_file_json (cfg : Config) (evs : List JEvent) : Playlist :=
  (processEvents { playlist := initialPlaylist cfg } evs).playlist

/-- One member/value event pair emitted by the writer. -/
def pairEv (k v : JEvent) : List JEvent := [k, v]

/-- Events of the six unconditional string members of one entry object, in
the order playlist_write_file emits them. -/
def entryFixed6 (e : Entry) : List JEvent :=
  pairEv (JEvent.objectMember "path") (JEvent.stringVal (optStr e.path)) ++
  pairEv (JEvent.objectMember "label") (JEvent.stringVal (optStr e.label)) ++
  pairEv (JEvent.objectMember "core_path") (JEvent.stringVal (optStr e.core_path)) ++
  pairEv (JEvent.objectMember "core_name") (JEvent.stringVal (optStr e.core_name)) ++
  pairEv (JEvent.objectMember "crc32") (JEvent.stringVal (optStr e.crc32)) ++
  pairEv (JEvent.objectMember "db_name") (JEvent.stringVal (optStr e.db_name))

/-- Events of one conditional subsystem string member (emitted only when
the field is non-NULL and non-empty). -/
def entryOptSeg (k : String) (o : Option String) : List JEvent :=
  if optStr o == "" then []
  else pairEv (JEvent.objectMember k) (JEvent.stringVal (optStr o))

/-- Events of the conditional subsystem_roms array (emitted only when the
list pointer is non-NULL and the list is non-empty); empty ROM strings are
written as the empty string. -/
def entryRomsSeg : Option (List String) → List JEvent
  | none => []
  | some roms =>
      if roms.length > 0 then
        [JEvent.objectMember "subsystem_roms", JEvent.startArray] ++
          roms.map JEvent.stringVal ++ [JEvent.endArray]
      else []

/-- Events of one entry object as emitted by playlist_write_file (lines
1665-1842): the six fixed string members, the conditional subsystem ident
and name members, and the conditional subsystem_roms array. -/
def entryWriteEvents (e : Entry) : List JEvent :=
  [JEvent.startObject] ++ entryFixed6 e ++
    entryOptSeg "subsystem_ident" e.subsystem_ident ++
    entryOptSeg "subsystem_name" e.subsystem_name ++
    entryRomsSeg e.subsystem_roms ++ [JEvent.endObject]

/-- Events of the items array body, one entry object per stored entry in
store order. -/
def entriesWriteEvents : List Entry → List JEvent
  | [] => []
  | e :: es => entryWriteEvents e ++ entriesWriteEvents es

/-- Events of the header of the top-level object emitted by
playlist_write_file (lines 1545-1663): version tag, default core
path/name, the conditional base content directory, the four display-mode
numbers, and the opening of the items array. -/
def headerWriteEvents (pl : Playlist) : List JEvent :=
  [JEvent.startObject] ++
  pairEv (JEvent.objectMember "version") (JEvent.stringVal "1.4") ++
  pairEv (JEvent.objectMember "default_core_path")
         (JEvent.stringVal (optStr pl.default_core_path)) ++
  pairEv (JEvent.objectMember "default_core_name")
         (JEvent.stringVal (optStr pl.default_core_name)) ++
  (if optStr pl.base_content_directory == "" then []
   else pairEv (JEvent.objectMember "base_content_directory")
               (JEvent.stringVal (optStr pl.base_content_directory))) ++
  pairEv (JEvent.objectMember "label_display_mode")
         (JEvent.numberVal (natStr3 pl.label_display_mode)) ++
  pairEv (JEvent.objectMember "right_thumbnail_mode")
         (JEvent.numberVal (natStr3 pl.right_thumbnail_mode)) ++
  pairEv (JEvent.objectMember "left_thumbnail_mode")
         (JEvent.numberVal (natStr3 pl.left_thumbnail_mode)) ++
  pairEv (JEvent.objectMember "sort_mode")
         (JEvent.numberVal (natStr3 pl.sort_mode)) ++
  pairEv (JEvent.objectMember "items") JEvent.startArray

/-- Complete event stream emitted by playlist_write_file (lines 1439-1861),
structured-format branch: the header, the items array body, and the two
closing events.  Pretty/compact whitespace differences change no event. -/
def playlist_write_file_events (pl : Playlist) : List JEvent :=
  headerWriteEvents pl ++ entriesWriteEvents pl.entries ++
    [JEvent.endArray, JEvent.endObject]

/-- Projection of an entry onto the data the structured format persists:
the nine serialised fields, with runtime bookkeeping zeroed (exactly the
state of a freshly parsed entry). -/
def persistedEntry (e : Entry) : Entry :=
  { path := e.path, label := e.label, core_path := e.core_path,
    core_name := e.core_name, crc32 := e.crc32, db_name := e.db_name,
    subsystem_ident := e.subsystem_ident, subsystem_name := e.subsystem_name,
    subsystem_roms := e.subsystem_roms }

/-- Well-formedness of an entry as produced by this module itself: an
optional string is NULL rather than an allocated empty string, and a
subsystem ROM list is NULL rather than empty and holds no empty ROM
strings.  Every entry constructed by playlist_push or by the readers
satisfies this. -/
def wfEntry (e : Entry) : Prop :=
  e.path ≠ some "" ∧ e.label ≠ some "" ∧ e.core_path ≠ some "" ∧
  e.core_name ≠ some "" ∧ e.crc32 ≠ some "" ∧ e.db_name ≠ some "" ∧
  e.subsystem_ident ≠ some "" ∧ e.subsystem_name ≠ some "" ∧
  (match e.subsystem_roms with
   | none => True
   | some l => l ≠ [] ∧ ∀ r ∈ l, r ≠ "")

instance (e : Entry) : Decidable (wfEntry e) := by
  unfold wfEntry
  cases h : e.subsystem_roms with
  | none => exact inferInstance
  | some l => exact inferInstance

/-- Reader state while positioned at the top level of the document, after
the opening brace and before the items array: depth (1,0), no pending
string target, with the given metadata-name and selector registers. -/
def metaSt (pl : Playlist) (ms : Option String) (mv : Option MetaStrField)
    (l : Bool) (t : Option Bool) (srt : Bool) : RState :=
  { playlist := pl, current_entry := none, current_meta_string := ms,
    current_items_string := none, current_entry_val := none,
    current_entry_uint_val := none, current_entry_string_list_sel := false,
    current_meta_val := mv, meta_ldm_sel := l, meta_thumb_sel := t,
    meta_sort_sel := srt, array_depth := 0, object_depth := 1,
    in_items := false, in_subsystem_roms := false,
    capacity_exceeded := false, aborted := false }

/-- Reader state between entry objects of the items array: depth (1,1),
inside items, no pending entry string target. -/
def itemsSt (pl : Playlist) (its : Option String) (ce : Option Entry)
    (sel cx : Bool) : RState :=
  { playlist := pl, current_entry := ce, current_meta_string := some "items",
    current_items_string := its, current_entry_val := none,
    current_entry_uint_val := none, current_entry_string_list_sel := sel,
    current_meta_val := none, meta_ldm_sel := false, meta_thumb_sel := none,
    meta_sort_sel := false, array_depth := 1, object_depth := 1,
    in_items := true, in_subsystem_roms := false,
    capacity_exceeded := cx, aborted := false }

/-- Reader state inside one entry object of the items array: depth (2,1). -/
def entrySt (pl : Playlist) (its : Option String) (ce : Option Entry)
    (ev : Option EntStrField) (sel cx : Bool) : RState :=
  { playlist := pl, current_entry := ce, current_meta_string := some "items",
    current_items_string := its, current_entry_val := ev,
    current_entry_uint_val := none, current_entry_string_list_sel := sel,
    current_meta_val := none, meta_ldm_sel := false, meta_thumb_sel := none,
    meta_sort_sel := false, array_depth := 1, object_depth := 2,
    in_items := true, in_subsystem_roms := false,
    capacity_exceeded := cx, aborted := false }

/-- Reader state inside the subsystem_roms array of one entry object:
depth (2,2), in_subsystem_roms raised. -/
def romsSt (pl : Playlist) (ce : Option Entry) (sel cx : Bool) : RState :=
  { playlist := pl, current_entry := ce, current_meta_string := some "items",
    current_items_string := some "subsystem_roms", current_entry_val := none,
    current_entry_uint_val := none, current_entry_string_list_sel := sel,
    current_meta_val := none, meta_ldm_sel := false, meta_thumb_sel := none,
    meta_sort_sel := false, array_depth := 2, object_depth := 2,
    in_items := true, in_subsystem_roms := true,
    capacity_exceeded := cx, aborted := false }

/-- Effect of one member/value string pair on the entry being built: the
field is set when the written value is non-empty, untouched otherwise. -/
def writeStr (f : EntStrField) (o : Option String) (ce : Entry) : Entry :=
  if optStr o == "" then ce else setEntStr f (optStr o) ce

/-- Entry accumulated after the six unconditional string pairs. -/
def build6 (e ce : Entry) : Entry :=
  writeStr .fdb_name e.db_name
    (writeStr .fcrc32 e.crc32
      (writeStr .fcore_name e.core_name
        (writeStr .fcore_path e.core_path
          (writeStr .flabel e.label
            (writeStr .fpath e.path ce)))))

/-- Entry accumulated after the six unconditional pairs and the two
conditional subsystem string pairs. -/
def buildStr8 (e : Entry) : Entry :=
  writeStr .fsubsystem_name e.subsystem_name
    (writeStr .fsubsystem_ident e.subsystem_ident (build6 e {}))

/-- Concrete entry with every serialised field populated, used to
instantiate witnesses. -/
def entFull : Entry :=
  { path := some "/games/alpha.rom", label := some "Alpha",
    core_path := some "/cores/core_a.so", core_name := some "CoreA",
    crc32 := some "12345678", db_name := some "db.lpl",
    subsystem_ident := some "subsys", subsystem_name := some "Subsys",
    subsystem_roms := some ["/games/r1.rom", "/games/r2.rom"],
    runtime_hours := 2 }

/-- Concrete minimal entry, used to instantiate witnesses. -/
def entPlainB : Entry :=
  { path := some "/games/beta.rom", core_path := some "/cores/core_b.so" }

/-- Concrete third entry, used to instantiate witnesses. -/
def entPlainC : Entry :=
  { path := some "/games/gamma.rom", core_path := some "/cores/core_c.so" }

/-- Concrete playlist holding three entries, used to instantiate
witnesses. -/
def wPl : Playlist :=
  { entries := [entFull, entPlainB, entPlainC],
    default_core_path := some "/cores/core_a.so",
    sort_mode := 1,
    config := { capacity := 9 } }

/-- Concrete entry of the push scenarios: content path and core path
only. -/
def entPlain : Entry := { path := some "a.rom", core_path := some "core1" }

/-- Concrete entry of the backfill scenario: entPlain plus a display
label. -/
def entLabelled : Entry :=
  { path := some "a.rom", core_path := some "core1", label := some "Game A" }

/-- Concrete empty playlist with room for ten entries, used to instantiate
witnesses. -/
def mruPl : Playlist := { config := { capacity := 10 } }

/-- Concrete playlist already holding its configured capacity of two
entries, used to instantiate witnesses. -/
def fullPl : Playlist :=
  { entries := [entPlainB, entPlainC], config := { capacity := 2 } }

/-- Concrete entry with no core path, used to instantiate witnesses. -/
def entNoCore : Entry := { path := some "b.rom" }

/-- Concrete playlist whose configured capacity is zero, used to
instantiate witnesses. -/
def cap0Pl : Playlist := { config := { capacity := 0 } }

/-- Concrete entry with an empty content path, used to instantiate
witnesses. -/
def entNoPath : Entry := { core_path := some "core9" }

/-- Concrete single-entry playlist of the index_is_valid scenario. -/
def idxPl : Playlist :=
  { entries := [{ path := some "a.rom", core_path := some "/cores/Core.so" }] }

/-- Concrete empty playlist of the backfill scenario. -/
def emptyPl : Playlist := { config := { capacity := 5 } }

/-- Concrete empty playlist of the empty-content-path scenarios. -/
def rtPl : Playlist := { config := { capacity := 4 } }

/-- Concrete playlist whose sort mode is PLAYLIST_SORT_MODE_OFF. -/
def sortOffPl : Playlist :=
  { entries := [entFull, entPlainB], sort_mode := PLAYLIST_SORT_MODE_OFF }

/-- Concrete reading configuration with room for three entries. -/
def wCfg : Config := { capacity := 3 }

/-- Concrete reading configuration with room for two entries. -/
def cap2Cfg : Config := { capacity := 2 }

/-- Field-for-field agreement of the nine persisted fields of two entries. -/
def persistedFieldsEq (a b : Entry) : Prop :=
  a.path = b.path ∧ a.label = b.label ∧ a.core_path = b.core_path ∧
  a.core_name = b.core_name ∧ a.crc32 = b.crc32 ∧ a.db_name = b.db_name ∧
  a.subsystem_ident = b.subsystem_ident ∧ a.subsystem_name = b.subsystem_name ∧
  a.subsystem_roms = b.subsystem_roms

/-- One call of an arbitrary interleaving of the two push operations:
a step tagged true is a playlist_push, a step tagged false a
playlist_push_runtime. -/
def pushStep (env : PathEnv) (pl : Playlist) (s : Bool × Entry) : Playlist :=
  if s.1 then (playlist_push env pl s.2).2 else (playlist_push_runtime env pl s.2).2

theorem processEvents_nil (st : RState) : processEvents st [] = st := rfl

theorem processEvents_cons (st : RState) (a : JEvent) (b : List JEvent) :
    processEvents st (a :: b) = processEvents (rstep st a) b := rfl

theorem processEvents_append (st : RState) (a b : List JEvent) :
    processEvents st (a ++ b) = processEvents (processEvents st a) b :=
  List.foldl_append _ _ _ _

theorem setMetaStr_entries (m : MetaStrField) (v : String) (pl : Playlist) :
    (setMetaStr m v pl).entries = pl.entries := by cases m <;> rfl

theorem setMetaStr_modified (m : MetaStrField) (v : String) (pl : Playlist) :
    (setMetaStr m v pl).modified = pl.modified := by cases m <;> rfl

theorem setMetaStr_config (m : MetaStrField) (v : String) (pl : Playlist) :
    (setMetaStr m v pl).config = pl.config := by cases m <;> rfl

/-- Processing of one top-level string-metadata member/value pair: the
metadata field is written when the value is non-empty, the member-name
register is consumed, the target register ends clear. -/
theorem metaStrPair (pl : Playlist) (ms : Option String) (l : Bool) (t : Option Bool)
    (srt : Bool) (k v : String) (m : MetaStrField)
    (hk : metaStrKey k = some m) (hkne : (k == "") = false) :
    processEvents (metaSt pl ms none l t srt)
        (pairEv (JEvent.objectMember k) (JEvent.stringVal v))
      = metaSt (if v == "" then pl else setMetaStr m v pl)
          (if v == "" then some k else none) none l t srt := by
  simp only [processEvents, pairEv, List.foldl, rstep, handleMember, handleString, metaSt]
  simp only [hk, hkne]
  cases hv : v == "" with
  | true =>
      have hv' : v = "" := by simpa using hv
      subst hv'
      simp [metaSt]
  | false =>
      have hv' : ¬(v = "") := by simpa using hv
      simp [metaSt, hv, hv']

/-- Processing of the version member/value pair: the name matches no
metadata slot, so the value is discarded. -/
theorem metaVersionPair (pl : Playlist) (ms : Option String) (l : Bool)
    (t : Option Bool) (srt : Bool) (v : String) :
    processEvents (metaSt pl ms none l t srt)
        (pairEv (JEvent.objectMember "version") (JEvent.stringVal v))
      = metaSt pl (some "version") none l t srt := by
  simp [processEvents, pairEv, rstep, handleMember, handleString, metaSt, metaStrKey]

/-- Processing of the label_display_mode member/number pair. -/
theorem metaNumPairLdm (pl : Playlist) (ms : Option String) (v : String) :
    processEvents (metaSt pl ms none false none false)
        (pairEv (JEvent.objectMember "label_display_mode") (JEvent.numberVal v))
      = metaSt (if v == "" then pl else { pl with label_display_mode := strtoulDec v })
          (if v == "" then some "label_display_mode" else none) none false none false := by
  simp only [processEvents, pairEv, List.foldl, rstep, handleMember, handleNumber,
    metaSt, metaStrKey]
  cases hv : v == "" with
  | true =>
      have hv' : v = "" := by simpa using hv
      subst hv'
      simp [metaSt]
  | false =>
      have hv' : ¬(v = "") := by simpa using hv
      simp [metaSt, hv, hv']

/-- Processing of the right_thumbnail_mode member/number pair. -/
theorem metaNumPairRight (pl : Playlist) (ms : Option String) (v : String) :
    processEvents (metaSt pl ms none false none false)
        (pairEv (JEvent.objectMember "right_thumbnail_mode") (JEvent.numberVal v))
      = metaSt (if v == "" then pl else { pl with right_thumbnail_mode := strtoulDec v })
          (if v == "" then some "right_thumbnail_mode" else none) none false none false := by
  simp only [processEvents, pairEv, List.foldl, rstep, handleMember, handleNumber,
    metaSt, metaStrKey]
  cases hv : v == "" with
  | true =>
      have hv' : v = "" := by simpa using hv
      subst hv'
      simp [metaSt]
  | false =>
      have hv' : ¬(v = "") := by simpa using hv
      simp [metaSt, hv, hv']

/-- Processing of the left_thumbnail_mode member/number pair. -/
theorem metaNumPairLeft (pl : Playlist) (ms : Option String) (v : String) :
    processEvents (metaSt pl ms none false none false)
        (pairEv (JEvent.objectMember "left_thumbnail_mode") (JEvent.numberVal v))
      = metaSt (if v == "" then pl else { pl with left_thumbnail_mode := strtoulDec v })
          (if v == "" then some "left_thumbnail_mode" else none) none false none false := by
  simp only [processEvents, pairEv, List.foldl, rstep, handleMember, handleNumber,
    metaSt, metaStrKey]
  cases hv : v == "" with
  | true =>
      have hv' : v = "" := by simpa using hv
      subst hv'
      simp [metaSt]
  | false =>
      have hv' : ¬(v = "") := by simpa using hv
      simp [metaSt, hv, hv']

/-- Processing of the sort_mode member/number pair. -/
theorem metaNumPairSort (pl : Playlist) (ms : Option String) (v : String) :
    processEvents (metaSt pl ms none false none false)
        (pairEv (JEvent.objectMember "sort_mode") (JEvent.numberVal v))
      = metaSt (if v == "" then pl else { pl with sort_mode := strtoulDec v })
          (if v == "" then some "sort_mode" else none) none false none false := by
  simp only [processEvents, pairEv, List.foldl, rstep, handleMember, handleNumber,
    metaSt, metaStrKey]
  cases hv : v == "" with
  | true =>
      have hv' : v = "" := by simpa using hv
      subst hv'
      simp [metaSt]
  | false =>
      have hv' : ¬(v = "") := by simpa using hv
      simp [metaSt, hv, hv']

/-- Processing of the opening brace from the zeroed parser context. -/
theorem openStep (cfg : Config) :
    processEvents { playlist := initialPlaylist cfg } [JEvent.startObject]
      = metaSt (initialPlaylist cfg) none none false none false := rfl

/-- Processing of the items member and the opening bracket of the items
array: the in_items flag is raised. -/
theorem itemsOpen (pl : Playlist) (ms : Option String) :
    processEvents (metaSt pl ms none false none false)
        (pairEv (JEvent.objectMember "items") JEvent.startArray)
      = itemsSt pl none none false false := by
  simp [processEvents, pairEv, rstep, handleMember, handleStartArray,
    metaSt, itemsSt, metaStrKey]

/-- Processing of the whole document header written by playlist_write_file:
the reader ends positioned inside the items array over a playlist with no
entries, no modification, and the configured capacity. -/
theorem headerProcesses (cfg : Config) (pl : Playlist) :
    ∃ pl', processEvents { playlist := initialPlaylist cfg } (headerWriteEvents pl)
        = itemsSt pl' none none false false ∧
      pl'.entries = [] ∧ pl'.modified = false ∧ pl'.config = cfg := by
  rw [headerWriteEvents]
  simp only [processEvents_append]
  rw [openStep, metaVersionPair,
    metaStrPair _ _ _ _ _ "default_core_path" _ .fdefault_core_path (by decide) (by decide),
    metaStrPair _ _ _ _ _ "default_core_name" _ .fdefault_core_name (by decide) (by decide)]
  cases hbcd : optStr pl.base_content_directory == "" with
  | true =>
      rw [if_pos (rfl : true = true), processEvents_nil, metaNumPairLdm, metaNumPairRight,
        metaNumPairLeft, metaNumPairSort, itemsOpen]
      refine ⟨_, rfl, ?_, ?_, ?_⟩ <;>
        simp [setMetaStr_entries, setMetaStr_modified, setMetaStr_config,
          apply_ite Playlist.entries, apply_ite Playlist.modified,
          apply_ite Playlist.config, initialPlaylist]
  | false =>
      rw [if_neg (show ¬(false = true) by simp),
        metaStrPair _ _ _ _ _ "base_content_directory" _ .fbase_content_directory (by decide) (by decide),
        metaNumPairLdm, metaNumPairRight, metaNumPairLeft, metaNumPairSort, itemsOpen]
      refine ⟨_, rfl, ?_, ?_, ?_⟩ <;>
        simp [setMetaStr_entries, setMetaStr_modified, setMetaStr_config,
          apply_ite Playlist.entries, apply_ite Playlist.modified,
          apply_ite Playlist.config, initialPlaylist]

theorem optIte (o : Option String) : (if o = none then (none : Option String) else o) = o := by
  cases o <;> rfl

theorem writeStr_fpath (o : Option String) (ce : Entry) (h : o ≠ some "") :
    writeStr .fpath o ce = { ce with path := if o = none then ce.path else o } := by
  rcases o with _ | s
  · simp [writeStr, optStr]
  · have hs : ¬(s = "") := fun hs => h (by rw [hs])
    simp [writeStr, optStr, setEntStr, hs]

theorem writeStr_flabel (o : Option String) (ce : Entry) (h : o ≠ some "") :
    writeStr .flabel o ce = { ce with label := if o = none then ce.label else o } := by
  rcases o with _ | s
  · simp [writeStr, optStr]
  · have hs : ¬(s = "") := fun hs => h (by rw [hs])
    simp [writeStr, optStr, setEntStr, hs]

theorem writeStr_fcore_path (o : Option String) (ce : Entry) (h : o ≠ some "") :
    writeStr .fcore_path o ce = { ce with core_path := if o = none then ce.core_path else o } := by
  rcases o with _ | s
  · simp [writeStr, optStr]
  · have hs : ¬(s = "") := fun hs => h (by rw [hs])
    simp [writeStr, optStr, setEntStr, hs]

theorem writeStr_fcore_name (o : Option String) (ce : Entry) (h : o ≠ some "") :
    writeStr .fcore_name o ce = { ce with core_name := if o = none then ce.core_name else o } := by
  rcases o with _ | s
  · simp [writeStr, optStr]
  · have hs : ¬(s = "") := fun hs => h (by rw [hs])
    simp [writeStr, optStr, setEntStr, hs]

theorem writeStr_fcrc32 (o : Option String) (ce : Entry) (h : o ≠ some "") :
    writeStr .fcrc32 o ce = { ce with crc32 := if o = none then ce.crc32 else o } := by
  rcases o with _ | s
  · simp [writeStr, optStr]
  · have hs : ¬(s = "") := fun hs => h (by rw [hs])
    simp [writeStr, optStr, setEntStr, hs]

theorem writeStr_fdb_name (o : Option String) (ce : Entry) (h : o ≠ some "") :
    writeStr .fdb_name o ce = { ce with db_name := if o = none then ce.db_name else o } := by
  rcases o with _ | s
  · simp [writeStr, optStr]
  · have hs : ¬(s = "") := fun hs => h (by rw [hs])
    simp [writeStr, optStr, setEntStr, hs]

theorem writeStr_fsubsystem_ident (o : Option String) (ce : Entry) (h : o ≠ some "") :
    writeStr .fsubsystem_ident o ce
      = { ce with subsystem_ident := if o = none then ce.subsystem_ident else o } := by
  rcases o with _ | s
  · simp [writeStr, optStr]
  · have hs : ¬(s = "") := fun hs => h (by rw [hs])
    simp [writeStr, optStr, setEntStr, hs]

theorem writeStr_fsubsystem_name (o : Option String) (ce : Entry) (h : o ≠ some "") :
    writeStr .fsubsystem_name o ce
      = { ce with subsystem_name := if o = none then ce.subsystem_name else o } := by
  rcases o with _ | s
  · simp [writeStr, optStr]
  · have hs : ¬(s = "") := fun hs => h (by rw [hs])
    simp [writeStr, optStr, setEntStr, hs]

/-- Entry built from the eight string member pairs of a well-formed entry:
exactly the persisted projection, with no ROM list yet. -/
theorem buildStr8_wf (e : Entry) (hwf : wfEntry e) :
    buildStr8 e = { persistedEntry e with subsystem_roms := none } := by
  obtain ⟨h1, h2, h3, h4, h5, h6, h7, h8, -⟩ := hwf
  rw [buildStr8, build6,
    writeStr_fpath _ _ h1, writeStr_flabel _ _ h2, writeStr_fcore_path _ _ h3,
    writeStr_fcore_name _ _ h4, writeStr_fcrc32 _ _ h5, writeStr_fdb_name _ _ h6,
    writeStr_fsubsystem_ident _ _ h7, writeStr_fsubsystem_name _ _ h8]
  simp [persistedEntry, optIte]

/-- Processing of the opening brace of one entry object below capacity: a
zeroed slot is reserved. -/
theorem entryOpen (pl : Playlist) (its : Option String) (ce : Option Entry)
    (sel : Bool) (h : pl.entries.length < pl.config.capacity) :
    processEvents (itemsSt pl its ce sel false) [JEvent.startObject]
      = entrySt pl its (some {}) none sel false := by
  simp [processEvents, rstep, handleStartObject, itemsSt, entrySt, h]

/-- Processing of the opening brace of one entry object at capacity: the
sticky capacity_exceeded flag is raised and the playlist marked modified. -/
theorem entryOpenExceeded (pl : Playlist) (its : Option String) (ce : Option Entry)
    (sel : Bool) (h : ¬(pl.entries.length < pl.config.capacity)) :
    processEvents (itemsSt pl its ce sel false) [JEvent.startObject]
      = entrySt { pl with modified := true } its none none sel true := by
  simp [processEvents, rstep, handleStartObject, itemsSt, entrySt, h]

/-- Processing of one entry-level string member/value pair: the selected
field of the reserved slot is written when the value is non-empty. -/
theorem entryPair (pl : Playlist) (its : Option String) (sel : Bool) (ce : Entry)
    (k v : String) (f : EntStrField)
    (hk : entryStrKey k = some f) (hkne : (k == "") = false) :
    processEvents (entrySt pl its (some ce) none sel false)
        (pairEv (JEvent.objectMember k) (JEvent.stringVal v))
      = entrySt pl (some k) (some (if v == "" then ce else setEntStr f v ce))
          none sel false := by
  simp only [processEvents, pairEv, List.foldl, rstep, handleMember, handleString,
    modifyCur, entrySt]
  simp only [hk, hkne]
  cases hv : v == "" with
  | true =>
      have hv' : v = "" := by simpa using hv
      subst hv'
      simp [entrySt]
  | false =>
      have hv' : ¬(v = "") := by simpa using hv
      simp [entrySt, hv, hv']

/-- Processing of the six unconditional string pairs of one entry object. -/
theorem entryFixed6Process (pl : Playlist) (its : Option String) (sel : Bool)
    (ce e : Entry) :
    processEvents (entrySt pl its (some ce) none sel false) (entryFixed6 e)
      = entrySt pl (some "db_name") (some (build6 e ce)) none sel false := by
  rw [entryFixed6]
  simp only [processEvents_append]
  rw [entryPair _ _ _ _ "path" _ .fpath (by decide) (by decide),
    entryPair _ _ _ _ "label" _ .flabel (by decide) (by decide),
    entryPair _ _ _ _ "core_path" _ .fcore_path (by decide) (by decide),
    entryPair _ _ _ _ "core_name" _ .fcore_name (by decide) (by decide),
    entryPair _ _ _ _ "crc32" _ .fcrc32 (by decide) (by decide),
    entryPair _ _ _ _ "db_name" _ .fdb_name (by decide) (by decide)]
  rfl

/-- Processing of one conditional subsystem string segment. -/
theorem entryOptSegProcess (pl : Playlist) (its : Option String) (sel : Bool)
    (ce : Entry) (k : String) (o : Option String) (f : EntStrField)
    (hk : entryStrKey k = some f) (hkne : (k == "") = false) :
    processEvents (entrySt pl its (some ce) none sel false) (entryOptSeg k o)
      = entrySt pl (if optStr o == "" then its else some k)
          (some (writeStr f o ce)) none sel false := by
  rw [entryOptSeg]
  cases ho : optStr o == "" with
  | true =>
      rw [if_pos rfl, processEvents_nil]
      simp [writeStr, ho]
  | false =>
      rw [if_neg (by simp), entryPair _ _ _ _ k _ f hk hkne]
      simp [writeStr, ho]

/-- Processing of the subsystem_roms member and the opening bracket of the
ROM array. -/
theorem romsOpen (pl : Playlist) (its : Option String) (sel : Bool) (ce : Entry) :
    processEvents (entrySt pl its (some ce) none sel false)
        [JEvent.objectMember "subsystem_roms", JEvent.startArray]
      = romsSt pl (some ce) true false := by
  simp [processEvents, rstep, handleMember, handleStartArray, entrySt, romsSt,
    entryStrKey]

/-- Processing of the ROM string values: each non-empty value is appended to
the reserved slot's ROM list. -/
theorem romsStrings (pl : Playlist) (ce : Entry) (l acc : List String)
    (hl : ∀ r ∈ l, ¬(r = "")) :
    processEvents (romsSt pl (some { ce with subsystem_roms := some acc }) true false)
        (l.map JEvent.stringVal)
      = romsSt pl (some { ce with subsystem_roms := some (acc ++ l) }) true false := by
  induction l generalizing acc with
  | nil => simp [processEvents_nil]
  | cons r rest ih =>
      have hr : ¬(r = "") := hl r (by simp)
      have hstep :
          rstep (romsSt pl (some { ce with subsystem_roms := some acc }) true false)
              (JEvent.stringVal r)
            = romsSt pl (some { ce with subsystem_roms := some (acc ++ [r]) }) true false := by
        simp [rstep, handleString, modifyCur, romsSt, hr]
      rw [List.map_cons, processEvents_cons, hstep,
        ih (acc ++ [r]) (fun x hx => hl x (by simp [hx]))]
      simp

/-- Processing of the closing bracket of the ROM array. -/
theorem romsClose (pl : Playlist) (ce : Entry) :
    processEvents (romsSt pl (some ce) true false) [JEvent.endArray]
      = entrySt pl (some "subsystem_roms") (some ce) none true false := by
  simp [processEvents, rstep, handleEndArray, romsSt, entrySt]

/-- Processing of the whole subsystem_roms segment of an entry whose ROM
list is still unset: the written list is read back verbatim. -/
theorem romsSegFull (pl : Playlist) (its : Option String) (sel : Bool) (ce : Entry)
    (l : List String) (hne : l ≠ []) (hl : ∀ r ∈ l, ¬(r = ""))
    (hroms : ce.subsystem_roms = none) :
    processEvents (entrySt pl its (some ce) none sel false) (entryRomsSeg (some l))
      = entrySt pl (some "subsystem_roms") (some { ce with subsystem_roms := some l })
          none true false := by
  obtain ⟨r, rest, rfl⟩ : ∃ r rest, l = r :: rest := by
    cases l with
    | nil => exact absurd rfl hne
    | cons r rest => exact ⟨r, rest, rfl⟩
  have hr : ¬(r = "") := hl r (by simp)
  have hstep :
      rstep (romsSt pl (some ce) true false) (JEvent.stringVal r)
        = romsSt pl (some { ce with subsystem_roms := some [r] }) true false := by
    simp [rstep, handleString, modifyCur, romsSt, hr, hroms]
  have hmap :
      processEvents (romsSt pl (some ce) true false)
          ((r :: rest).map JEvent.stringVal)
        = romsSt pl (some { ce with subsystem_roms := some (r :: rest) }) true false := by
    rw [List.map_cons, processEvents_cons, hstep,
      romsStrings pl ce rest [r] (fun x hx => hl x (by simp [hx]))]
    simp
  rw [entryRomsSeg, if_pos (by simp)]
  simp only [processEvents_append]
  rw [romsOpen, hmap, romsClose]

/-- Processing of the closing brace of one entry object below capacity: the
reserved slot becomes visible at the end of the entry array. -/
theorem entryClose (pl : Playlist) (its : Option String) (sel : Bool) (ce : Entry) :
    processEvents (entrySt pl its (some ce) none sel false) [JEvent.endObject]
      = itemsSt { pl with entries := pl.entries ++ [ce] } its (some ce) sel false := by
  simp [processEvents, rstep, handleEndObject, entrySt, itemsSt]

/-- Processing of one whole entry object below capacity: the entry array
grows by exactly the persisted projection of the written entry. -/
theorem entryEventsProcess (pl : Playlist) (its : Option String) (ce : Option Entry)
    (sel : Bool) (e : Entry) (hcap : pl.entries.length < pl.config.capacity)
    (hwf : wfEntry e) :
    ∃ its' sel',
      processEvents (itemsSt pl its ce sel false) (entryWriteEvents e)
        = itemsSt { pl with entries := pl.entries ++ [persistedEntry e] } its'
            (some (persistedEntry e)) sel' false := by
  have h9 := hwf.2.2.2.2.2.2.2.2
  rw [entryWriteEvents]
  simp only [processEvents_append]
  rw [entryOpen _ _ _ _ hcap, entryFixed6Process,
    entryOptSegProcess _ _ _ _ "subsystem_ident" _ .fsubsystem_ident (by decide) (by decide),
    entryOptSegProcess _ _ _ _ "subsystem_name" _ .fsubsystem_name (by decide) (by decide)]
  have hb : writeStr .fsubsystem_name e.subsystem_name
        (writeStr .fsubsystem_ident e.subsystem_ident (build6 e ({} : Entry)))
      = { persistedEntry e with subsystem_roms := none } := buildStr8_wf e hwf
  rw [hb]
  cases hroms : e.subsystem_roms with
  | none =>
      have hpe : ({ persistedEntry e with subsystem_roms := none } : Entry)
          = persistedEntry e := by
        simp [persistedEntry, hroms]
      rw [show entryRomsSeg none = [] from rfl, processEvents_nil, hpe, entryClose]
      exact ⟨_, _, rfl⟩
  | some l =>
      rw [hroms] at h9
      have hpe : ({ { persistedEntry e with subsystem_roms := none } with
            subsystem_roms := some l } : Entry) = persistedEntry e := by
        simp [persistedEntry, hroms]
      rw [romsSegFull _ _ _ _ l h9.1 (fun r hr => h9.2 r hr) rfl,
        hpe, entryClose]
      exact ⟨_, _, rfl⟩

/-- Processing of one entry-level member/value pair after the capacity was
exceeded: only the member-name register changes; all entry targets are
forced clear and no data is stored. -/
theorem entryXPair (pl : Playlist) (its : Option String) (ce : Option Entry)
    (sel : Bool) (k v : String) (hkne : (k == "") = false) :
    processEvents (entrySt pl its ce none sel true)
        (pairEv (JEvent.objectMember k) (JEvent.stringVal v))
      = entrySt pl (some k) ce none false true := by
  simp only [processEvents, pairEv, List.foldl, rstep, handleMember, handleString,
    modifyCur, entrySt]
  simp [hkne, entrySt]

/-- Processing of the six unconditional pairs of a discarded entry. -/
theorem entryXFixed6 (pl : Playlist) (its : Option String) (ce : Option Entry)
    (sel : Bool) (e : Entry) :
    processEvents (entrySt pl its ce none sel true) (entryFixed6 e)
      = entrySt pl (some "db_name") ce none false true := by
  rw [entryFixed6]
  simp only [processEvents_append]
  rw [entryXPair _ _ _ _ "path" _ (by decide), entryXPair _ _ _ _ "label" _ (by decide),
    entryXPair _ _ _ _ "core_path" _ (by decide),
    entryXPair _ _ _ _ "core_name" _ (by decide),
    entryXPair _ _ _ _ "crc32" _ (by decide),
    entryXPair _ _ _ _ "db_name" _ (by decide)]

/-- Processing of one conditional subsystem segment of a discarded entry. -/
theorem entryXOptSeg (pl : Playlist) (its : Option String) (ce : Option Entry)
    (sel : Bool) (k : String) (o : Option String) (hkne : (k == "") = false) :
    processEvents (entrySt pl its ce none sel true) (entryOptSeg k o)
      = entrySt pl (if optStr o == "" then its else some k) ce none
          (if optStr o == "" then sel else false) true := by
  rw [entryOptSeg]
  cases ho : optStr o == "" with
  | true => rw [if_pos rfl, if_pos rfl, if_pos rfl, processEvents_nil]
  | false =>
      rw [if_neg (by simp), if_neg (by simp), if_neg (by simp),
        entryXPair _ _ _ _ k _ hkne]

/-- Processing of the ROM values of a discarded entry: nothing is stored. -/
theorem romsXStrings (pl : Playlist) (ce : Option Entry) (l : List String) :
    processEvents (romsSt pl ce false true) (l.map JEvent.stringVal)
      = romsSt pl ce false true := by
  induction l with
  | nil => rfl
  | cons r rest ih =>
      rw [List.map_cons, processEvents_cons,
        show rstep (romsSt pl ce false true) (JEvent.stringVal r)
          = romsSt pl ce false true by simp [rstep, handleString, romsSt], ih]

/-- Processing of the whole subsystem_roms segment of a discarded entry. -/
theorem entryXRomsSeg (pl : Playlist) (its : Option String) (ce : Option Entry)
    (sel : Bool) (o : Option (List String)) :
    ∃ its' sel',
      processEvents (entrySt pl its ce none sel true) (entryRomsSeg o)
        = entrySt pl its' ce none sel' true := by
  cases o with
  | none => exact ⟨its, sel, rfl⟩
  | some l =>
      cases l with
      | nil => exact ⟨its, sel, by rw [entryRomsSeg, if_neg (by simp), processEvents_nil]⟩
      | cons r rest =>
          refine ⟨some "subsystem_roms", false, ?_⟩
          rw [entryRomsSeg, if_pos (by simp)]
          simp only [processEvents_append]
          rw [show processEvents (entrySt pl its ce none sel true)
                [JEvent.objectMember "subsystem_roms", JEvent.startArray]
              = romsSt pl ce false true by
            simp [processEvents, rstep, handleMember, handleStartArray, entrySt,
              romsSt, entryStrKey],
            romsXStrings,
            show processEvents (romsSt pl ce false true) [JEvent.endArray]
              = entrySt pl (some "subsystem_roms") ce none false true by
            simp [processEvents, rstep, handleEndArray, romsSt, entrySt]]

/-- Processing of the closing brace of a discarded entry: nothing is
committed. -/
theorem entryXClose (pl : Playlist) (its : Option String) (ce : Option Entry)
    (sel : Bool) :
    processEvents (entrySt pl its ce none sel true) [JEvent.endObject]
      = itemsSt pl its ce sel true := by
  simp [processEvents, rstep, handleEndObject, entrySt, itemsSt]

/-- Processing of one whole entry object after capacity was exceeded: the
playlist is unchanged. -/
theorem entryEventsExceeded (pl : Playlist) (its : Option String) (ce : Option Entry)
    (sel : Bool) (e : Entry) :
    ∃ its' sel',
      processEvents (itemsSt pl its ce sel true) (entryWriteEvents e)
        = itemsSt pl its' ce sel' true := by
  rw [entryWriteEvents]
  simp only [processEvents_append]
  rw [show processEvents (itemsSt pl its ce sel true) [JEvent.startObject]
      = entrySt pl its ce none sel true by
    simp [processEvents, rstep, handleStartObject, itemsSt, entrySt],
    entryXFixed6,
    entryXOptSeg _ _ _ _ "subsystem_ident" _ (by decide),
    entryXOptSeg _ _ _ _ "subsystem_name" _ (by decide)]
  obtain ⟨its', sel', hr⟩ := entryXRomsSeg pl
    (if optStr e.subsystem_name == ""
     then (if optStr e.subsystem_ident == "" then some "db_name" else some "subsystem_ident")
     else some "subsystem_name")
    ce
    (if optStr e.subsystem_name == ""
     then (if optStr e.subsystem_ident == "" then false else false)
     else false)
    e.subsystem_roms
  rw [hr, entryXClose]
  exact ⟨its', sel', rfl⟩

/-- Processing of the first entry object beyond capacity: the sticky flag is
raised, the playlist is marked modified and the entry is discarded. -/
theorem entryEventsTipping (pl : Playlist) (its : Option String) (ce : Option Entry)
    (sel : Bool) (e : Entry) (hcap : ¬(pl.entries.length < pl.config.capacity)) :
    ∃ its' sel',
      processEvents (itemsSt pl its ce sel false) (entryWriteEvents e)
        = itemsSt { pl with modified := true } its' none sel' true := by
  rw [entryWriteEvents]
  simp only [processEvents_append]
  rw [entryOpenExceeded _ _ _ _ hcap, entryXFixed6,
    entryXOptSeg _ _ _ _ "subsystem_ident" _ (by decide),
    entryXOptSeg _ _ _ _ "subsystem_name" _ (by decide)]
  obtain ⟨its', sel', hr⟩ := entryXRomsSeg { pl with modified := true }
    (if optStr e.subsystem_name == ""
     then (if optStr e.subsystem_ident == "" then some "db_name" else some "subsystem_ident")
     else some "subsystem_name")
    none
    (if optStr e.subsystem_name == ""
     then (if optStr e.subsystem_ident == "" then false else false)
     else false)
    e.subsystem_roms
  rw [hr, entryXClose]
  exact ⟨its', sel', rfl⟩

theorem entriesWriteEvents_cons (e : Entry) (es : List Entry) :
    entriesWriteEvents (e :: es) = entryWriteEvents e ++ entriesWriteEvents es := rfl

theorem entriesWriteEvents_append (a b : List Entry) :
    entriesWriteEvents (a ++ b) = entriesWriteEvents a ++ entriesWriteEvents b := by
  induction a with
  | nil => rfl
  | cons e rest ih => simp [entriesWriteEvents_cons, ih]

/-- Processing of the items array body while it fits in the capacity: every
written entry is appended, as its persisted projection, in order. -/
theorem entriesLoopFit (es : List Entry) (pl : Playlist) (its : Option String)
    (ce : Option Entry) (sel : Bool) (hwf : ∀ e ∈ es, wfEntry e)
    (hcap : pl.entries.length + es.length ≤ pl.config.capacity) :
    ∃ its' ce' sel',
      processEvents (itemsSt pl its ce sel false) (entriesWriteEvents es)
        = itemsSt { pl with entries := pl.entries ++ es.map persistedEntry }
            its' ce' sel' false := by
  induction es generalizing pl its ce sel with
  | nil =>
      refine ⟨its, ce, sel, ?_⟩
      rw [show entriesWriteEvents [] = [] from rfl, processEvents_nil]
      simp
  | cons e rest ih =>
      rw [entriesWriteEvents_cons, processEvents_append]
      have hc1 : pl.entries.length < pl.config.capacity := by
        simp only [List.length_cons] at hcap
        omega
      obtain ⟨its1, sel1, h1⟩ :=
        entryEventsProcess pl its ce sel e hc1 (hwf e (by simp))
      rw [h1]
      obtain ⟨its2, ce2, sel2, h2⟩ :=
        ih { pl with entries := pl.entries ++ [persistedEntry e] } its1
          (some (persistedEntry e)) sel1 (fun x hx => hwf x (by simp [hx]))
          (by simp only [List.length_cons] at hcap; simp; omega)
      refine ⟨its2, ce2, sel2, ?_⟩
      rw [h2]
      have hpl : ({ { pl with entries := pl.entries ++ [persistedEntry e] } with
            entries := ({ pl with entries := pl.entries ++ [persistedEntry e] }).entries
              ++ rest.map persistedEntry } : Playlist)
          = { pl with entries := pl.entries ++ (e :: rest).map persistedEntry } := by
        simp
      rw [hpl]

/-- Processing of the rest of the items array after capacity was exceeded:
the playlist is unchanged. -/
theorem entriesLoopExceeded (es : List Entry) (pl : Playlist) (its : Option String)
    (ce : Option Entry) (sel : Bool) :
    ∃ its' sel',
      processEvents (itemsSt pl its ce sel true) (entriesWriteEvents es)
        = itemsSt pl its' ce sel' true := by
  induction es generalizing its sel with
  | nil => exact ⟨its, sel, rfl⟩
  | cons e rest ih =>
      rw [entriesWriteEvents_cons, processEvents_append]
      obtain ⟨its1, sel1, h1⟩ := entryEventsExceeded pl its ce sel e
      rw [h1]
      obtain ⟨its2, sel2, h2⟩ := ih its1 sel1
      exact ⟨its2, sel2, h2⟩

/-- Processing of the two closing events of the document leaves the built
playlist untouched. -/
theorem itemsCloseProcess (pl : Playlist) (its : Option String) (ce : Option Entry)
    (sel cx : Bool) :
    (processEvents (itemsSt pl its ce sel cx)
        [JEvent.endArray, JEvent.endObject]).playlist = pl := by
  simp [processEvents, rstep, handleEndArray, handleEndObject, itemsSt]

/-- Round trip of the entry array through the structured format when the
reading capacity suffices: the read-back entry list is the persisted
projection of the written one, in order. -/
theorem readWriteEntries (pl : Playlist) (cfg : Config)
    (hwf : ∀ e ∈ pl.entries, wfEntry e)
    (hcap : pl.entries.length ≤ cfg.capacity) :
    (playlist_read_file_json cfg (playlist_write_file_events pl)).entries
      = pl.entries.map persistedEntry := by
  rw [playlist_read_file_json, playlist_write_file_events]
  simp only [processEvents_append]
  obtain ⟨pl0, h0, he, hm, hc⟩ := headerProcesses cfg pl
  rw [h0]
  obtain ⟨its', ce', sel', h1⟩ :=
    entriesLoopFit pl.entries pl0 none none false hwf
      (by rw [he, hc]; simpa using hcap)
  rw [h1, itemsCloseProcess]
  simp [he]

/-- Reading the structured format written from a playlist with more entries
than the reading capacity: exactly the first capacity-many entries are
retained and the playlist is marked modified. -/
theorem readWriteOverflow (pl : Playlist) (cfg : Config)
    (hwf : ∀ e ∈ pl.entries, wfEntry e)
    (hcap : cfg.capacity < pl.entries.length) :
    (playlist_read_file_json cfg (playlist_write_file_events pl)).entries
      = (pl.entries.take cfg.capacity).map persistedEntry ∧
    (playlist_read_file_json cfg (playlist_write_file_events pl)).modified = true := by
  rw [playlist_read_file_json, playlist_write_file_events]
  simp only [processEvents_append]
  obtain ⟨pl0, h0, he, hm, hc⟩ := headerProcesses cfg pl
  rw [h0]
  have hsplit : entriesWriteEvents pl.entries
      = entriesWriteEvents (pl.entries.take cfg.capacity)
        ++ entriesWriteEvents (pl.entries.drop cfg.capacity) := by
    rw [← entriesWriteEvents_append, List.take_append_drop]
  obtain ⟨d, ds, hd⟩ : ∃ d ds, pl.entries.drop cfg.capacity = d :: ds := by
    have hne : pl.entries.drop cfg.capacity ≠ [] := by
      intro hnil
      have hlen := congrArg List.length hnil
      simp only [List.length_drop, List.length_nil] at hlen
      omega
    cases hdrop : pl.entries.drop cfg.capacity with
    | nil => exact absurd hdrop hne
    | cons d ds => exact ⟨d, ds, rfl⟩
  rw [hsplit, hd, entriesWriteEvents_cons]
  simp only [processEvents_append]
  obtain ⟨its1, ce1, sel1, h1⟩ :=
    entriesLoopFit (pl.entries.take cfg.capacity) pl0 none none false
      (fun x hx => hwf x (List.mem_of_mem_take hx))
      (by rw [he, hc]; simp)
  rw [h1]
  obtain ⟨its2, sel2, h2⟩ := entryEventsTipping
    { pl0 with entries := pl0.entries ++ (pl.entries.take cfg.capacity).map persistedEntry }
    its1 ce1 sel1 d
    (by simp [he, hc]; omega)
  rw [h2]
  obtain ⟨its3, sel3, h3⟩ := entriesLoopExceeded ds _ its2 none sel2
  rw [h3, itemsCloseProcess]
  constructor
  · simp [he]
  · simp

theorem findSplit_eq_none {p : α → Bool} {l : List α}
    (h : ∀ x ∈ l, p x = false) : findSplit p l = none := by
  induction l with
  | nil => rfl
  | cons x xs ih =>
      rw [findSplit, if_neg (by simp [h x (by simp)]),
        ih (fun y hy => h y (by simp [hy]))]
      rfl

theorem findSplit_cons_pos {p : α → Bool} {x : α} {xs : List α} (h : p x = true) :
    findSplit p (x :: xs) = some ([], x, xs) := by
  rw [findSplit, if_pos h]

theorem findSplit_shape {p : α → Bool} {l pre : List α} {x : α} {suf : List α}
    (h : findSplit p l = some (pre, x, suf)) :
    l = pre ++ x :: suf ∧ p x = true := by
  induction l generalizing pre with
  | nil => exact absurd h (by simp [findSplit])
  | cons y ys ih =>
      rw [findSplit] at h
      by_cases hy : p y = true
      · rw [if_pos hy] at h
        obtain ⟨rfl, rfl, rfl⟩ : pre = [] ∧ y = x ∧ ys = suf := by
          simpa using h
        exact ⟨rfl, hy⟩
      · rw [if_neg hy] at h
        rcases hfs : findSplit p ys with _ | ⟨pre', x', suf'⟩
        · rw [hfs] at h; simp at h
        · rw [hfs] at h
          obtain ⟨rfl, rfl, rfl⟩ : y :: pre' = pre ∧ x' = x ∧ suf' = suf := by
            simpa using h
          obtain ⟨hl, hp⟩ := ih hfs
          exact ⟨by rw [hl]; rfl, hp⟩

/-- Configuration snapshot preserved by playlist_push. -/
theorem playlist_push_config (env : PathEnv) (pl : Playlist) (e : Entry) :
    ((playlist_push env pl e).2).config = pl.config := by
  rw [playlist_push]
  dsimp only
  repeat' split
  all_goals rfl

/-- Result playlist of a failed playlist_push is the input playlist. -/
theorem playlist_push_false (env : PathEnv) (pl : Playlist) (e : Entry)
    (h : (playlist_push env pl e).1 = false) :
    (playlist_push env pl e).2 = pl := by
  revert h
  rw [playlist_push]
  dsimp only
  repeat' split
  all_goals simp

/-- Entry-array length bound preserved by playlist_push: starting within the
capacity bound, a push never exceeds it. -/
theorem playlist_push_length_le (env : PathEnv) (pl : Playlist) (e : Entry)
    (h : pl.entries.length ≤ pl.config.capacity) :
    (playlist_push env pl e).2.entries.length ≤ pl.config.capacity := by
  rw [playlist_push]
  dsimp only
  rcases hfs : findSplit (pushEntryMatch env pl.config (pushRealPath env e)
      (pushRealCorePath env e) e) pl.entries with _ | ⟨pre, stored, suf⟩
  · repeat' split
    all_goals simp_all [List.length_take]
    all_goals omega
  · obtain ⟨hl, hp⟩ := findSplit_shape hfs
    rcases pre with _ | ⟨q, pre'⟩ <;> repeat' split
    all_goals simp_all
    all_goals omega

/-- Guards of playlist_push extracted from a successful call: non-empty
core path, non-empty resolved core path, non-empty core name. -/
theorem playlist_push_true_guards (env : PathEnv) (pl : Playlist) (e : Entry)
    (h : (playlist_push env pl e).1 = true) :
    string_is_empty e.core_path = false ∧ (pushRealCorePath env e == "") = false ∧
      (coreNameOf env e == "") = false := by
  rw [playlist_push] at h
  dsimp only at h
  by_cases h1 : string_is_empty e.core_path = true
  · rw [if_pos h1] at h; simp at h
  rw [if_neg h1] at h
  by_cases h2 : (pushRealCorePath env e == "") = true
  · rw [if_pos h2] at h; simp at h
  rw [if_neg h2] at h
  by_cases h3 : (coreNameOf env e == "") = true
  · rw [if_pos h3] at h; simp at h
  exact ⟨by simpa using h1, by simpa using h2, by simpa using h3⟩

/-- Backfill touches only label/crc32/db_name, which the push match
predicate never reads. -/
theorem pushEntryMatch_backfill (env : PathEnv) (cfg : Config) (rp rcp : String)
    (e s : Entry) :
    pushEntryMatch env cfg rp rcp e (backfillEntry e s).1
      = pushEntryMatch env cfg rp rcp e s := rfl

theorem backfillEntry_fst_label (e s : Entry) :
    (backfillEntry e s).1.label
      = if s.label == none && !string_is_empty e.label then e.label else s.label := rfl

theorem backfillEntry_fst_crc32 (e s : Entry) :
    (backfillEntry e s).1.crc32
      = if s.crc32 == none && !string_is_empty e.crc32 then e.crc32 else s.crc32 := rfl

theorem backfillEntry_fst_db_name (e s : Entry) :
    (backfillEntry e s).1.db_name
      = if s.db_name == none && !string_is_empty e.db_name then e.db_name else s.db_name := rfl

/-- Backfill of a stored entry with nothing to backfill is the identity. -/
theorem backfill_noop (e s : Entry) (h : noBackfillFor e s) :
    backfillEntry e s = (s, false) := by
  obtain ⟨hl, hc, hd⟩ := h
  have u1 : (s.label == none && !string_is_empty e.label) = false := by
    cases hsl : s.label with
    | none => simp [hl hsl]
    | some x => simp
  have u2 : (s.crc32 == none && !string_is_empty e.crc32) = false := by
    cases hsc : s.crc32 with
    | none => simp [hc hsc]
    | some x => simp
  have u3 : (s.db_name == none && !string_is_empty e.db_name) = false := by
    cases hsd : s.db_name with
    | none => simp [hd hsd]
    | some x => simp
  simp [backfillEntry, u1, u2, u3]

/-- An entry that just went through backfill offers no further backfill to
the same pushed entry. -/
theorem backfilled_noBackfill (e s : Entry) :
    noBackfillFor e (backfillEntry e s).1 := by
  refine ⟨?_, ?_, ?_⟩ <;> intro hn
  · rw [backfillEntry_fst_label] at hn
    by_cases hb : (s.label == none && !string_is_empty e.label) = true
    · rw [if_pos hb] at hn
      simp [string_is_empty, hn]
    · rw [if_neg hb] at hn
      simp [hn] at hb
      simpa using hb
  · rw [backfillEntry_fst_crc32] at hn
    by_cases hb : (s.crc32 == none && !string_is_empty e.crc32) = true
    · rw [if_pos hb] at hn
      simp [string_is_empty, hn]
    · rw [if_neg hb] at hn
      simp [hn] at hb
      simpa using hb
  · rw [backfillEntry_fst_db_name] at hn
    by_cases hb : (s.db_name == none && !string_is_empty e.db_name) = true
    · rw [if_pos hb] at hn
      simp [string_is_empty, hn]
    · rw [if_neg hb] at hn
      simp [hn] at hb
      simpa using hb

theorem pushNewEntry_label (e : Entry) (rp rcp cn : String) :
    (pushNewEntry e rp rcp cn).label
      = if string_is_empty e.label then none else e.label := rfl

theorem pushNewEntry_crc32 (e : Entry) (rp rcp cn : String) :
    (pushNewEntry e rp rcp cn).crc32
      = if string_is_empty e.crc32 then none else e.crc32 := rfl

theorem pushNewEntry_db_name (e : Entry) (rp rcp cn : String) :
    (pushNewEntry e rp rcp cn).db_name
      = if string_is_empty e.db_name then none else e.db_name := rfl

/-- A freshly inserted entry offers no backfill to the entry it was built
from. -/
theorem pushNewEntry_noBackfill (e : Entry) (rp rcp cn : String) :
    noBackfillFor e (pushNewEntry e rp rcp cn) := by
  refine ⟨?_, ?_, ?_⟩ <;> intro hn
  · rw [pushNewEntry_label] at hn
    by_cases hc : string_is_empty e.label = true
    · exact hc
    · rw [if_neg (by simpa using hc)] at hn
      simp [string_is_empty, hn]
  · rw [pushNewEntry_crc32] at hn
    by_cases hc : string_is_empty e.crc32 = true
    · exact hc
    · rw [if_neg (by simpa using hc)] at hn
      simp [string_is_empty, hn]
  · rw [pushNewEntry_db_name] at hn
    by_cases hc : string_is_empty e.db_name = true
    · exact hc
    · rw [if_neg (by simpa using hc)] at hn
      simp [string_is_empty, hn]

/-- Resolution of the pushed content path is a fixed point of the resolver
(or the empty buffer) when the resolver is idempotent. -/
theorem pushRealPath_fixed (env : PathEnv) (e : Entry)
    (hidem : ∀ s, env.resolve (env.resolve s) = env.resolve s) :
    pushRealPath env e = "" ∨ env.resolve (pushRealPath env e) = pushRealPath env e := by
  rw [pushRealPath]
  split
  · exact Or.inl rfl
  · exact Or.inr (hidem _)

/-- Resolution of the pushed core path is a sentinel or a fixed point of the
resolver when the resolver is idempotent. -/
theorem pushRealCorePath_fixed (env : PathEnv) (e : Entry)
    (hidem : ∀ s, env.resolve (env.resolve s) = env.resolve s) :
    pushRealCorePath env e = FILE_PATH_DETECT ∨
    pushRealCorePath env e = FILE_PATH_BUILTIN ∨
    env.resolve (pushRealCorePath env e) = pushRealCorePath env e := by
  rw [pushRealCorePath]
  split
  next hs =>
    rcases (by simpa using hs : optStr e.core_path = FILE_PATH_DETECT ∨
        optStr e.core_path = FILE_PATH_BUILTIN) with h | h
    · exact Or.inl h
    · exact Or.inr (Or.inl h)
  next => exact Or.inr (Or.inr (hidem _))

/-- The push match predicate accepts the entry that playlist_push itself
just inserted for the same normalised paths, provided the pushed entries
carry no subsystem data. -/
theorem pushEntryMatch_newEntry (env : PathEnv) (cfg : Config) (rp rcp cn : String)
    (e e' : Entry)
    (hP : rp = "" ∨ env.resolve rp = rp)
    (hCne : (rcp == "") = false)
    (hC : rcp = FILE_PATH_DETECT ∨ rcp = FILE_PATH_BUILTIN ∨ env.resolve rcp = rcp)
    (hsi : string_is_empty e.subsystem_ident = true)
    (hsn : string_is_empty e.subsystem_name = true)
    (hsr : e.subsystem_roms = none)
    (hsi' : string_is_empty e'.subsystem_ident = true)
    (hsn' : string_is_empty e'.subsystem_name = true) :
    pushEntryMatch env cfg rp rcp e (pushNewEntry e' rp rcp cn) = true := by
  have hpath : pathsEqualForPush env cfg rp (pushNewEntry e' rp rcp cn).path = true := by
    rw [show (pushNewEntry e' rp rcp cn).path
        = if rp == "" then none else some rp from rfl]
    cases hrp : rp == "" with
    | true => simp [pathsEqualForPush, hrp, string_is_empty]
    | false =>
        have hrp' : ¬(rp = "") := by simpa using hrp
        have hres : env.resolve rp = rp := by
          rcases hP with h | h
          · exact absurd h hrp'
          · exact h
        simp [pathsEqualForPush, playlist_path_equal, hrp, string_is_empty,
          optStr, hres]
  have hrcpne : ¬(rcp = "") := by simpa using hCne
  have hcore : playlist_core_path_equal env rcp
      (pushNewEntry e' rp rcp cn).core_path cfg = true := by
    rw [show (pushNewEntry e' rp rcp cn).core_path
        = if rcp == "" then none else some rcp from rfl,
      if_neg (by simp [hCne]), playlist_core_path_equal]
    simp only [optStr, string_is_empty]
    rw [if_neg (by simp [hrcpne])]
    cases hsent : (rcp == FILE_PATH_DETECT || rcp == FILE_PATH_BUILTIN) with
    | true => simp [hsent, hrcpne]
    | false =>
        have hres : env.resolve rcp = rcp := by
          rcases hC with h | h | h
          · rw [h] at hsent; simp [FILE_PATH_DETECT] at hsent
          · rw [h] at hsent; simp [FILE_PATH_BUILTIN] at hsent
          · exact h
        simp [hsent, hres, hrcpne]
  have hsub1 : subsysMatch (pushNewEntry e' rp rcp cn).subsystem_ident
      e.subsystem_ident = true := by
    rw [show (pushNewEntry e' rp rcp cn).subsystem_ident
        = if string_is_empty e'.subsystem_ident then none
          else e'.subsystem_ident from rfl, if_pos hsi']
    simp [subsysMatch, hsi,
      show string_is_empty none = true from rfl]
  have hsub2 : subsysMatch (pushNewEntry e' rp rcp cn).subsystem_name
      e.subsystem_name = true := by
    rw [show (pushNewEntry e' rp rcp cn).subsystem_name
        = if string_is_empty e'.subsystem_name then none
          else e'.subsystem_name from rfl, if_pos hsn']
    simp [subsysMatch, hsn,
      show string_is_empty none = true from rfl]
  have hroms : romsMatch env cfg e.subsystem_roms
      (pushNewEntry e' rp rcp cn).subsystem_roms = true := by
    rw [hsr, romsMatch]
  rw [pushEntryMatch, hpath, hcore, hsub1, hsub2, hroms]
  rfl

/-- Successful playlist_push leaves at the front an entry that the push
match predicate accepts for the same pushed entry, with no backfill left to
apply (the pushed entry must carry no subsystem data and the resolver must
be idempotent). -/
theorem playlist_push_true_head (env : PathEnv) (pl : Playlist) (e : Entry)
    (hidem : ∀ s, env.resolve (env.resolve s) = env.resolve s)
    (hsi : e.subsystem_ident = none) (hsn : e.subsystem_name = none)
    (hsr : e.subsystem_roms = none)
    (h : (playlist_push env pl e).1 = true) :
    ∃ hd tl, (playlist_push env pl e).2.entries = hd :: tl ∧
      pushEntryMatch env pl.config (pushRealPath env e)
        (pushRealCorePath env e) e hd = true ∧
      noBackfillFor e hd := by
  obtain ⟨hg1, hg2, hg3⟩ := playlist_push_true_guards env pl e h
  rw [playlist_push] at h ⊢
  dsimp only at h ⊢
  rw [if_neg (by simp [hg1]), if_neg (by simp [hg2]), if_neg (by simp [hg3])] at h ⊢
  rcases hfs : findSplit (pushEntryMatch env pl.config (pushRealPath env e)
      (pushRealCorePath env e) e) pl.entries with _ | ⟨pre, stored, suf⟩
  · rw [hfs] at h
    dsimp only at h ⊢
    by_cases hc0 : pl.config.capacity = 0
    · rw [if_pos hc0] at h; simp at h
    rw [if_neg hc0] at h ⊢
    refine ⟨_, _, rfl, ?_, pushNewEntry_noBackfill e _ _ _⟩
    exact pushEntryMatch_newEntry env pl.config _ _ _ e e
      (pushRealPath_fixed env e hidem) hg2
      (pushRealCorePath_fixed env e hidem)
      (by rw [hsi]; rfl) (by rw [hsn]; rfl) hsr
      (by rw [hsi]; rfl) (by rw [hsn]; rfl)
  · obtain ⟨hl, hp⟩ := findSplit_shape hfs
    rw [hfs] at h
    rcases pre with _ | ⟨q, pre'⟩
    · dsimp only at h ⊢
      by_cases hbf : (backfillEntry e stored).2 = true
      · rw [if_pos hbf]
        exact ⟨_, _, rfl, by rw [pushEntryMatch_backfill]; exact hp,
          backfilled_noBackfill e stored⟩
      · rw [if_neg hbf] at h; simp at h
    · dsimp only
      exact ⟨_, _, rfl, by rw [pushEntryMatch_backfill]; exact hp,
        backfilled_noBackfill e stored⟩

/-- A push whose match is already at the front with nothing to backfill is a
no-op returning false. -/
theorem playlist_push_head_noop (env : PathEnv) (pl : Playlist) (e hd : Entry)
    (tl : List Entry) (hent : pl.entries = hd :: tl)
    (hm : pushEntryMatch env pl.config (pushRealPath env e)
      (pushRealCorePath env e) e hd = true)
    (hnb : noBackfillFor e hd)
    (hg1 : string_is_empty e.core_path = false)
    (hg2 : (pushRealCorePath env e == "") = false)
    (hg3 : (coreNameOf env e == "") = false) :
    playlist_push env pl e = (false, pl) := by
  rw [playlist_push]
  dsimp only
  rw [if_neg (by simp [hg1]), if_neg (by simp [hg2]), if_neg (by simp [hg3]),
    hent, findSplit_cons_pos hm]
  dsimp only
  rw [backfill_noop e hd hnb]
  simp

/-- A push whose match is already at the front with a backfillable field
updates the front in place, marks the playlist modified, and returns
true. -/
theorem playlist_push_head_backfill (env : PathEnv) (pl : Playlist) (e hd : Entry)
    (tl : List Entry) (hent : pl.entries = hd :: tl)
    (hm : pushEntryMatch env pl.config (pushRealPath env e)
      (pushRealCorePath env e) e hd = true)
    (hbf : (backfillEntry e hd).2 = true)
    (hg1 : string_is_empty e.core_path = false)
    (hg2 : (pushRealCorePath env e == "") = false)
    (hg3 : (coreNameOf env e == "") = false) :
    playlist_push env pl e
      = (true, { pl with
          entries := ((backfillEntry e hd).1 :: tl),
          modified := true }) := by
  rw [playlist_push]
  dsimp only
  rw [if_neg (by simp [hg1]), if_neg (by simp [hg2]), if_neg (by simp [hg3]),
    hent, findSplit_cons_pos hm]
  dsimp only
  rw [if_pos hbf]

/-- A push with no match at full capacity evicts the last entry and inserts
the new entry at the front. -/
theorem playlist_push_insert_full (env : PathEnv) (pl : Playlist) (e : Entry)
    (hg1 : string_is_empty e.core_path = false)
    (hg2 : (pushRealCorePath env e == "") = false)
    (hg3 : (coreNameOf env e == "") = false)
    (hnm : ∀ s ∈ pl.entries, pushEntryMatch env pl.config (pushRealPath env e)
      (pushRealCorePath env e) e s = false)
    (hc0 : pl.config.capacity ≠ 0)
    (hfull : pl.entries.length = pl.config.capacity) :
    playlist_push env pl e
      = (true, { pl with
          entries := pushNewEntry e (pushRealPath env e) (pushRealCorePath env e)
              (coreNameOf env e) :: pl.entries.take (pl.entries.length - 1),
          modified := true }) := by
  rw [playlist_push]
  dsimp only
  rw [if_neg (by simp [hg1]), if_neg (by simp [hg2]), if_neg (by simp [hg3]),
    findSplit_eq_none hnm]
  dsimp only
  rw [if_neg hc0, if_pos hfull]

/-- A push with no match into an empty store inserts the new entry as the
single element. -/
theorem playlist_push_insert_empty (env : PathEnv) (pl : Playlist) (e : Entry)
    (hent : pl.entries = [])
    (hg1 : string_is_empty e.core_path = false)
    (hg2 : (pushRealCorePath env e == "") = false)
    (hg3 : (coreNameOf env e == "") = false)
    (hc0 : pl.config.capacity ≠ 0) :
    playlist_push env pl e
      = (true, { pl with
          entries := [pushNewEntry e (pushRealPath env e) (pushRealCorePath env e)
              (coreNameOf env e)],
          modified := true }) := by
  rw [playlist_push]
  dsimp only
  rw [if_neg (by simp [hg1]), if_neg (by simp [hg2]), if_neg (by simp [hg3]), hent,
    show findSplit (pushEntryMatch env pl.config (pushRealPath env e)
      (pushRealCorePath env e) e) [] = none from rfl]
  dsimp only
  rw [if_neg hc0, if_neg (by simpa using fun hh => hc0 hh.symm)]

/-- A push with no match while the configured capacity is zero fails
without modification. -/
theorem playlist_push_cap0 (env : PathEnv) (pl : Playlist) (e : Entry)
    (hnm : ∀ s ∈ pl.entries, pushEntryMatch env pl.config (pushRealPath env e)
      (pushRealCorePath env e) e s = false)
    (hc0 : pl.config.capacity = 0) :
    playlist_push env pl e = (false, pl) := by
  rw [playlist_push]
  dsimp only
  by_cases hg1 : string_is_empty e.core_path = true
  · rw [if_pos hg1]
  · rw [if_neg hg1]
    by_cases hg2 : (pushRealCorePath env e == "") = true
    · rw [if_pos hg2]
    · rw [if_neg hg2]
      by_cases hg3 : (coreNameOf env e == "") = true
      · rw [if_pos hg3]
      · rw [if_neg hg3, findSplit_eq_none hnm]
        dsimp only
        rw [if_pos hc0]

/-- A push with an empty (NULL or zero-length) core path fails without
modification. -/
theorem playlist_push_empty_core (env : PathEnv) (pl : Playlist) (e : Entry)
    (h : string_is_empty e.core_path = true) :
    playlist_push env pl e = (false, pl) := by
  rw [playlist_push]
  dsimp only
  rw [if_pos h]

/-- Guards of playlist_push_runtime extracted from a successful call. -/
theorem playlist_push_runtime_true_guards (env : PathEnv) (pl : Playlist) (e : Entry)
    (h : (playlist_push_runtime env pl e).1 = true) :
    string_is_empty e.core_path = false ∧ (pushRealCorePath env e == "") = false := by
  rw [playlist_push_runtime] at h
  dsimp only at h
  by_cases h1 : string_is_empty e.core_path = true
  · rw [if_pos h1] at h; simp at h
  rw [if_neg h1] at h
  by_cases h2 : (pushRealCorePath env e == "") = true
  · rw [if_pos h2] at h; simp at h
  exact ⟨by simpa using h1, by simpa using h2⟩

/-- The runtime push match predicate accepts the entry that
playlist_push_runtime itself just inserted for the same normalised paths. -/
theorem pushRuntimeMatch_newEntry (env : PathEnv) (cfg : Config) (rp rcp : String)
    (e : Entry)
    (hP : rp = "" ∨ env.resolve rp = rp)
    (hCne : (rcp == "") = false)
    (hC : rcp = FILE_PATH_DETECT ∨ rcp = FILE_PATH_BUILTIN ∨ env.resolve rcp = rcp) :
    pushRuntimeMatch env cfg rp rcp (pushNewRuntimeEntry e rp rcp) = true := by
  have hrcpne : ¬(rcp = "") := by simpa using hCne
  have hpath : pathsEqualForPush env cfg rp (pushNewRuntimeEntry e rp rcp).path = true := by
    rw [show (pushNewRuntimeEntry e rp rcp).path
        = if rp == "" then none else some rp from rfl]
    cases hrp : rp == "" with
    | true => simp [pathsEqualForPush, hrp, string_is_empty]
    | false =>
        have hrp' : ¬(rp = "") := by simpa using hrp
        have hres : env.resolve rp = rp := by
          rcases hP with h | h
          · exact absurd h hrp'
          · exact h
        simp [pathsEqualForPush, playlist_path_equal, hrp, string_is_empty,
          optStr, hres]
  have hcore : playlist_core_path_equal env rcp
      (pushNewRuntimeEntry e rp rcp).core_path cfg = true := by
    rw [show (pushNewRuntimeEntry e rp rcp).core_path
        = if rcp == "" then none else some rcp from rfl,
      if_neg (by simp [hCne]), playlist_core_path_equal]
    simp only [optStr, string_is_empty]
    rw [if_neg (by simp [hrcpne])]
    cases hsent : (rcp == FILE_PATH_DETECT || rcp == FILE_PATH_BUILTIN) with
    | true => simp [hsent, hrcpne]
    | false =>
        have hres : env.resolve rcp = rcp := by
          rcases hC with h | h | h
          · rw [h] at hsent; simp [FILE_PATH_DETECT] at hsent
          · rw [h] at hsent; simp [FILE_PATH_BUILTIN] at hsent
          · exact h
        simp [hsent, hres, hrcpne]
  rw [pushRuntimeMatch, hpath, hcore]
  rfl

/-- Successful playlist_push_runtime leaves at the front an entry that the
runtime match predicate accepts. -/
theorem playlist_push_runtime_true_head (env : PathEnv) (pl : Playlist) (e : Entry)
    (hidem : ∀ s, env.resolve (env.resolve s) = env.resolve s)
    (h : (playlist_push_runtime env pl e).1 = true) :
    ∃ hd tl, (playlist_push_runtime env pl e).2.entries = hd :: tl ∧
      pushRuntimeMatch env pl.config (pushRealPath env e)
        (pushRealCorePath env e) hd = true := by
  obtain ⟨hg1, hg2⟩ := playlist_push_runtime_true_guards env pl e h
  rw [playlist_push_runtime] at h ⊢
  dsimp only at h ⊢
  rw [if_neg (by simp [hg1]), if_neg (by simp [hg2])] at h ⊢
  rcases hfs : findSplit (pushRuntimeMatch env pl.config (pushRealPath env e)
      (pushRealCorePath env e)) pl.entries with _ | ⟨pre, stored, suf⟩
  · rw [hfs] at h
    dsimp only at h ⊢
    by_cases hc0 : pl.config.capacity = 0
    · rw [if_pos hc0] at h; simp at h
    rw [if_neg hc0] at h ⊢
    refine ⟨_, _, rfl, ?_⟩
    exact pushRuntimeMatch_newEntry env pl.config _ _ e
      (pushRealPath_fixed env e hidem) hg2
      (pushRealCorePath_fixed env e hidem)
  · obtain ⟨hl, hp⟩ := findSplit_shape hfs
    rw [hfs] at h
    rcases pre with _ | ⟨q, pre'⟩
    · dsimp only at h
      simp at h
    · dsimp only
      exact ⟨_, _, rfl, hp⟩

/-- A runtime push whose match is already at the front is a no-op returning
false. -/
theorem playlist_push_runtime_head_noop (env : PathEnv) (pl : Playlist)
    (e hd : Entry) (tl : List Entry) (hent : pl.entries = hd :: tl)
    (hm : pushRuntimeMatch env pl.config (pushRealPath env e)
      (pushRealCorePath env e) hd = true)
    (hg1 : string_is_empty e.core_path = false)
    (hg2 : (pushRealCorePath env e == "") = false) :
    playlist_push_runtime env pl e = (false, pl) := by
  rw [playlist_push_runtime]
  dsimp only
  rw [if_neg (by simp [hg1]), if_neg (by simp [hg2]), hent, findSplit_cons_pos hm]

/-- Configuration snapshot preserved by playlist_push_runtime. -/
theorem playlist_push_runtime_config (env : PathEnv) (pl : Playlist) (e : Entry) :
    ((playlist_push_runtime env pl e).2).config = pl.config := by
  rw [playlist_push_runtime]
  dsimp only
  repeat' split
  all_goals rfl

/-- The projection of a list of entries onto the persisted fields agrees
field-for-field with the original list. -/
theorem forall₂_persistedFieldsEq (l : List Entry) :
    List.Forall₂ persistedFieldsEq (l.map persistedEntry) l := by
  induction l with
  | nil => exact List.Forall₂.nil
  | cons x xs ih =>
      exact List.Forall₂.cons ⟨rfl, rfl, rfl, rfl, rfl, rfl, rfl, rfl, rfl⟩ ih

/-- Entry-array length bound preserved by playlist_push_runtime. -/
theorem playlist_push_runtime_length_le (env : PathEnv) (pl : Playlist) (e : Entry)
    (h : pl.entries.length ≤ pl.config.capacity) :
    (playlist_push_runtime env pl e).2.entries.length ≤ pl.config.capacity := by
  rw [playlist_push_runtime]
  dsimp only
  rcases hfs : findSplit (pushRuntimeMatch env pl.config (pushRealPath env e)
      (pushRealCorePath env e)) pl.entries with _ | ⟨pre, stored, suf⟩
  · repeat' split
    all_goals simp_all [List.length_take]
    all_goals omega
  · obtain ⟨hl, hp⟩ := findSplit_shape hfs
    rcases pre with _ | ⟨q, pre'⟩ <;> repeat' split
    all_goals simp_all
    all_goals omega

/-- One push step (of either kind) preserves the length bound and the
configuration. -/
theorem pushStep_length (env : PathEnv) (s : Bool × Entry) (pl : Playlist)
    (h : pl.entries.length ≤ pl.config.capacity) :
    (pushStep env pl s).entries.length ≤ pl.config.capacity ∧
    (pushStep env pl s).config = pl.config := by
  rcases s with ⟨b, e⟩
  cases b
  · exact ⟨playlist_push_runtime_length_le env pl e h,
      playlist_push_runtime_config env pl e⟩
  · exact ⟨playlist_push_length_le env pl e h, playlist_push_config env pl e⟩

/-- Any interleaving of push steps preserves the length bound and the
configuration. -/
theorem pushSteps_length (env : PathEnv) (ss : List (Bool × Entry)) (pl : Playlist)
    (h : pl.entries.length ≤ pl.config.capacity) :
    (ss.foldl (pushStep env) pl).entries.length ≤ pl.config.capacity ∧
    (ss.foldl (pushStep env) pl).config = pl.config := by
  induction ss generalizing pl with
  | nil => exact ⟨h, rfl⟩
  | cons s ss ih =>
      obtain ⟨h1, h2⟩ := pushStep_length env s pl h
      obtain ⟨ha, hb⟩ := ih (pushStep env pl s) (by rw [h2]; exact h1)
      rw [h2] at ha hb
      exact ⟨ha, hb⟩

/-- After a successful playlist_push of a subsystem-free entry, pushing the
same entry again is a no-op returning false. -/
theorem push_second_noop (env : PathEnv) (pl : Playlist) (e : Entry)
    (hidem : ∀ s, env.resolve (env.resolve s) = env.resolve s)
    (hsi : e.subsystem_ident = none) (hsn : e.subsystem_name = none)
    (hsr : e.subsystem_roms = none)
    (h1 : (playlist_push env pl e).1 = true) :
    playlist_push env (playlist_push env pl e).2 e
      = (false, (playlist_push env pl e).2) := by
  obtain ⟨hg1, hg2, hg3⟩ := playlist_push_true_guards env pl e h1
  obtain ⟨hd, tl, hent, hm, hnb⟩ :=
    playlist_push_true_head env pl e hidem hsi hsn hsr h1
  have hm' : pushEntryMatch env ((playlist_push env pl e).2).config
      (pushRealPath env e) (pushRealCorePath env e) e hd = true := by
    rw [playlist_push_config]; exact hm
  exact playlist_push_head_noop env ((playlist_push env pl e).2) e hd tl hent hm'
    hnb hg1 hg2 hg3

/-- After a successful playlist_push_runtime, pushing the same entry again is
a no-op returning false. -/
theorem push_runtime_second_noop (env : PathEnv) (pl : Playlist) (e : Entry)
    (hidem : ∀ s, env.resolve (env.resolve s) = env.resolve s)
    (h1 : (playlist_push_runtime env pl e).1 = true) :
    playlist_push_runtime env (playlist_push_runtime env pl e).2 e
      = (false, (playlist_push_runtime env pl e).2) := by
  obtain ⟨hg1, hg2⟩ := playlist_push_runtime_true_guards env pl e h1
  obtain ⟨hd, tl, hent, hm⟩ := playlist_push_runtime_true_head env pl e hidem h1
  have hm' : pushRuntimeMatch env ((playlist_push_runtime env pl e).2).config
      (pushRealPath env e) (pushRealCorePath env e) hd = true := by
    rw [playlist_push_runtime_config]; exact hm
  exact playlist_push_runtime_head_noop env ((playlist_push_runtime env pl e).2)
    e hd tl hent hm' hg1 hg2

/-- playlist_path_equal depends on the configuration only through the fuzzy
archive matching flag. -/
theorem playlist_path_equal_cfg_fuzzy (env : PathEnv) (rp : String)
    (ep : Option String) (c1 c2 : Config)
    (h : c1.fuzzy_archive_match = c2.fuzzy_archive_match) :
    playlist_path_equal env rp ep c1 = playlist_path_equal env rp ep c2 := by
  rw [playlist_path_equal, playlist_path_equal, h]

/-- C1: writing a playlist in the structured (JSON) format and reading the
produced stream back yields a sequence of entries equal field-for-field
(path, label, core_path, core_name, crc32, db_name, subsystem_ident,
subsystem_name, subsystem_roms) and in the same order as the written
sequence, for entries with non-empty core paths, provided the reading
capacity is at least the number of entries written. -/
theorem claim_C1_roundtrip (pl : Playlist) (cfg : Config)
    (hwf : ∀ e ∈ pl.entries, wfEntry e)
    (hcore : ∀ e ∈ pl.entries, string_is_empty e.core_path = false)
    (hcap : pl.entries.length ≤ cfg.capacity) :
    (playlist_read_file_json cfg (playlist_write_file_events pl)).entries
      = pl.entries.map persistedEntry ∧
    List.Forall₂ persistedFieldsEq
      (playlist_read_file_json cfg (playlist_write_file_events pl)).entries
      pl.entries := by
  have h := readWriteEntries pl cfg hwf hcap
  exact ⟨h, by rw [h]; exact forall₂_persistedFieldsEq pl.entries⟩

set_option maxRecDepth 100000 in
theorem claim_C1_roundtrip_witness :
    (playlist_read_file_json wCfg (playlist_write_file_events wPl)).entries
      = wPl.entries.map persistedEntry ∧
    List.Forall₂ persistedFieldsEq
      (playlist_read_file_json wCfg (playlist_write_file_events wPl)).entries
      wPl.entries :=
  claim_C1_roundtrip wPl wCfg (by decide) (by decide) (by decide)

/-- C2: pushing the same subsystem-free entry twice (same content path and
core path) leaves the number of stored entries unchanged after the second
call, the matching entry occupies index 0 afterwards, and the second call
returns false without touching the playlist (the match is already at the
front with nothing to backfill). -/
theorem claim_C2_push_twice (env : PathEnv) (pl : Playlist) (e : Entry)
    (hidem : ∀ s, env.resolve (env.resolve s) = env.resolve s)
    (hsi : e.subsystem_ident = none) (hsn : e.subsystem_name = none)
    (hsr : e.subsystem_roms = none)
    (h1 : (playlist_push env pl e).1 = true) :
    playlist_push env (playlist_push env pl e).2 e
      = (false, (playlist_push env pl e).2) ∧
    (playlist_push env (playlist_push env pl e).2 e).2.entries.length
      = (playlist_push env pl e).2.entries.length ∧
    ∃ tl, (playlist_push env pl e).2.entries
        = (playlist_push env pl e).2.entries.headI :: tl ∧
      pushEntryMatch env pl.config (pushRealPath env e) (pushRealCorePath env e)
        e ((playlist_push env pl e).2.entries.headI) = true := by
  have hno := push_second_noop env pl e hidem hsi hsn hsr h1
  obtain ⟨hd, tl, hent, hm, hnb⟩ :=
    playlist_push_true_head env pl e hidem hsi hsn hsr h1
  have hh : (playlist_push env pl e).2.entries.headI = hd := by rw [hent]; rfl
  refine ⟨hno, by rw [hno], tl, ?_, ?_⟩
  · rw [hent]; rfl
  · rw [hh]; exact hm

set_option maxRecDepth 100000 in
theorem claim_C2_push_twice_witness :
    playlist_push stdEnv (playlist_push stdEnv mruPl entPlain).2 entPlain
      = (false, (playlist_push stdEnv mruPl entPlain).2) ∧
    (playlist_push stdEnv (playlist_push stdEnv mruPl entPlain).2 entPlain).2.entries.length
      = (playlist_push stdEnv mruPl entPlain).2.entries.length ∧
    ∃ tl, (playlist_push stdEnv mruPl entPlain).2.entries
        = (playlist_push stdEnv mruPl entPlain).2.entries.headI :: tl ∧
      pushEntryMatch stdEnv mruPl.config (pushRealPath stdEnv entPlain)
        (pushRealCorePath stdEnv entPlain) entPlain
        ((playlist_push stdEnv mruPl entPlain).2.entries.headI) = true :=
  claim_C2_push_twice stdEnv mruPl entPlain (fun s => rfl) rfl rfl rfl (by decide)

/-- C4: reading a structured-format stream holding more items than the
configured capacity yields exactly capacity-many entries (the first
capacity-many items in stream order), sets the modified flag, and retains
nothing of the excess items (the resulting entry array is exactly the
truncated prefix). -/
theorem claim_C4_overflow_load (pl : Playlist) (cfg : Config)
    (hwf : ∀ e ∈ pl.entries, wfEntry e)
    (hcap : cfg.capacity < pl.entries.length) :
    (playlist_read_file_json cfg (playlist_write_file_events pl)).entries
      = (pl.entries.take cfg.capacity).map persistedEntry ∧
    (playlist_read_file_json cfg (playlist_write_file_events pl)).modified = true ∧
    (playlist_read_file_json cfg (playlist_write_file_events pl)).entries.length
      = cfg.capacity := by
  obtain ⟨h1, h2⟩ := readWriteOverflow pl cfg hwf hcap
  refine ⟨h1, h2, ?_⟩
  rw [h1]
  simp only [List.length_map, List.length_take]
  omega

set_option maxRecDepth 100000 in
theorem claim_C4_overflow_load_witness :
    (playlist_read_file_json cap2Cfg (playlist_write_file_events wPl)).entries
      = (wPl.entries.take cap2Cfg.capacity).map persistedEntry ∧
    (playlist_read_file_json cap2Cfg (playlist_write_file_events wPl)).modified = true ∧
    (playlist_read_file_json cap2Cfg (playlist_write_file_events wPl)).entries.length
      = cap2Cfg.capacity :=
  claim_C4_overflow_load wPl cap2Cfg (by decide) (by decide)

/-- C6: playlist_push with an empty (NULL or zero-length) core path, or with
no matching stored entry while the configured capacity is zero, returns
false and returns the playlist completely unchanged. -/
theorem claim_C6_push_errors (env : PathEnv) (pl : Playlist) (e : Entry)
    (h : string_is_empty e.core_path = true ∨
      (pl.config.capacity = 0 ∧
        ∀ s ∈ pl.entries, pushEntryMatch env pl.config (pushRealPath env e)
          (pushRealCorePath env e) e s = false)) :
    playlist_push env pl e = (false, pl) := by
  rcases h with h | ⟨hc, hnm⟩
  · exact playlist_push_empty_core env pl e h
  · exact playlist_push_cap0 env pl e hnm hc

theorem claim_C6_push_errors_witness :
    playlist_push stdEnv mruPl entNoCore = (false, mruPl) :=
  claim_C6_push_errors stdEnv mruPl entNoCore (Or.inl (by decide))

/-- C8: sorting with sort_mode off leaves the playlist (in particular its
entry sequence) exactly as it was, whatever rearrangement the underlying
qsort would have applied. -/
theorem claim_C8_sort_off (qsortImpl : List Entry → List Entry) (pl : Playlist)
    (h : pl.sort_mode = PLAYLIST_SORT_MODE_OFF) :
    playlist_qsort qsortImpl pl = pl := by
  have hc : (pl.sort_mode == PLAYLIST_SORT_MODE_OFF || pl.entries.isEmpty) = true := by
    simp [h]
  rw [playlist_qsort, if_pos hc]

theorem claim_C8_sort_off_witness :
    playlist_qsort List.reverse sortOffPl = sortOffPl :=
  claim_C8_sort_off List.reverse sortOffPl rfl

/-- C10: in both push operations an entry with an empty (NULL) content path
is considered path-equal to a stored entry whose content path is also empty,
and two successive pushes of such an entry deduplicate: the second
playlist_push and the second playlist_push_runtime are no-ops returning
false. -/
theorem claim_C10_empty_path_dedup (env : PathEnv) (cfg : Config)
    (pl plr : Playlist) (e : Entry) (sp : Option String)
    (hidem : ∀ s, env.resolve (env.resolve s) = env.resolve s)
    (he : string_is_empty e.path = true)
    (hs : string_is_empty sp = true)
    (hsi : e.subsystem_ident = none) (hsn : e.subsystem_name = none)
    (hsr : e.subsystem_roms = none)
    (h1 : (playlist_push env pl e).1 = true)
    (h2 : (playlist_push_runtime env plr e).1 = true) :
    pathsEqualForPush env cfg (pushRealPath env e) sp = true ∧
    playlist_push env (playlist_push env pl e).2 e
      = (false, (playlist_push env pl e).2) ∧
    playlist_push_runtime env (playlist_push_runtime env plr e).2 e
      = (false, (playlist_push_runtime env plr e).2) := by
  refine ⟨?_, push_second_noop env pl e hidem hsi hsn hsr h1,
    push_runtime_second_noop env plr e hidem h2⟩
  rw [pushRealPath, if_pos he, pathsEqualForPush]
  simp [hs]

set_option maxRecDepth 100000 in
theorem claim_C10_empty_path_dedup_witness :
    pathsEqualForPush stdEnv cap2Cfg (pushRealPath stdEnv entNoPath) none = true ∧
    playlist_push stdEnv (playlist_push stdEnv rtPl entNoPath).2 entNoPath
      = (false, (playlist_push stdEnv rtPl entNoPath).2) ∧
    playlist_push_runtime stdEnv (playlist_push_runtime stdEnv rtPl entNoPath).2 entNoPath
      = (false, (playlist_push_runtime stdEnv rtPl entNoPath).2) :=
  claim_C10_empty_path_dedup stdEnv cap2Cfg rtPl rtPl entNoPath none
    (fun s => rfl) rfl rfl rfl rfl rfl (by decide) (by decide)

/-- C3: with a positive configured capacity, no interleaving of push calls
ever takes the entry count above the capacity; and a push that matches no
stored entry while the playlist is at capacity evicts the last entry and
inserts the new one at index 0, keeping the count at the capacity. -/
theorem claim_C3_capacity (env : PathEnv) (pl : Playlist) (e : Entry)
    (hcap0 : 0 < pl.config.capacity)
    (hfull : pl.entries.length = pl.config.capacity)
    (hg1 : string_is_empty e.core_path = false)
    (hg2 : (pushRealCorePath env e == "") = false)
    (hg3 : (coreNameOf env e == "") = false)
    (hnm : ∀ s ∈ pl.entries, pushEntryMatch env pl.config (pushRealPath env e)
      (pushRealCorePath env e) e s = false) :
    (∀ (ss : List (Bool × Entry)) (pl' : Playlist),
      pl'.config.capacity = pl.config.capacity →
      pl'.entries.length ≤ pl.config.capacity →
      (ss.foldl (pushStep env) pl').entries.length ≤ pl.config.capacity) ∧
    playlist_push env pl e
      = (true, { pl with
          entries := pushNewEntry e (pushRealPath env e) (pushRealCorePath env e)
              (coreNameOf env e) :: pl.entries.take (pl.entries.length - 1),
          modified := true }) ∧
    (playlist_push env pl e).2.entries.length = pl.config.capacity := by
  refine ⟨?_, ?_, ?_⟩
  · intro ss pl' hc hl
    have h := (pushSteps_length env ss pl' (by rw [hc]; exact hl)).1
    rw [hc] at h
    exact h
  · exact playlist_push_insert_full env pl e hg1 hg2 hg3 hnm (by omega) hfull
  · rw [playlist_push_insert_full env pl e hg1 hg2 hg3 hnm (by omega) hfull]
    dsimp only
    rw [List.length_cons, List.length_take]
    omega

set_option maxRecDepth 100000 in
theorem claim_C3_capacity_witness :
    (∀ (ss : List (Bool × Entry)) (pl' : Playlist),
      pl'.config.capacity = fullPl.config.capacity →
      pl'.entries.length ≤ fullPl.config.capacity →
      (ss.foldl (pushStep stdEnv) pl').entries.length ≤ fullPl.config.capacity) ∧
    playlist_push stdEnv fullPl entPlain
      = (true, { fullPl with
          entries := pushNewEntry entPlain (pushRealPath stdEnv entPlain)
              (pushRealCorePath stdEnv entPlain) (coreNameOf stdEnv entPlain)
              :: fullPl.entries.take (fullPl.entries.length - 1),
          modified := true }) ∧
    (playlist_push stdEnv fullPl entPlain).2.entries.length
      = fullPl.config.capacity :=
  claim_C3_capacity stdEnv fullPl entPlain (by decide) (by decide) (by decide)
    (by decide) (by decide) (by decide)

/-- C5: on two non-empty paths where exactly one side is a compressed
archive, playlist_path_equal returns true precisely when fuzzy archive
matching is enabled and the prefix of the archive+inner-path form up to the
archive delimiter equals the archive-only side; in particular, on
"/games/foo.zip" against the stored "/games/foo.zip#/rom.bin" the result is
exactly the fuzzy_archive_match flag. -/
theorem claim_C5_fuzzy_path_equal (cfg : Config) :
    (∀ (env : PathEnv) (rp ep : String),
      (rp == "") = false → (ep == "") = false →
      (env.resolve ep == "") = false →
      (rp == env.resolve ep) = false →
      env.is_compressed_file rp ≠ env.is_compressed_file (env.resolve ep) →
      playlist_path_equal env rp (some ep) cfg
        = (cfg.fuzzy_archive_match &&
            match env.archive_delim
                (if env.is_compressed_file rp then env.resolve ep else rp) with
            | some d =>
                (if env.is_compressed_file rp then rp else env.resolve ep)
                  == strTake (if env.is_compressed_file rp then env.resolve ep
                      else rp) d
            | none => false)) ∧
    playlist_path_equal stdEnv "/games/foo.zip" (some "/games/foo.zip#/rom.bin") cfg
      = cfg.fuzzy_archive_match := by
  constructor
  · intro env rp ep h1 h2 h3 h4 h5
    rw [playlist_path_equal]
    rw [if_neg (by simp [h1, h2, string_is_empty])]
    dsimp only
    simp only [optStr]
    rw [if_neg (by simp [h3]), if_neg (by simp [h4])]
    cases hf : cfg.fuzzy_archive_match
    · rw [if_pos (by decide)]
      simp
    · rw [if_neg (by decide)]
      cases ha : env.is_compressed_file rp <;>
        cases hb : env.is_compressed_file (env.resolve ep)
      · exact absurd (ha.trans hb.symm) h5
      · simp
      · simp
      · exact absurd (ha.trans hb.symm) h5
  · have hgen : ∀ b : Bool, playlist_path_equal stdEnv "/games/foo.zip"
        (some "/games/foo.zip#/rom.bin") { fuzzy_archive_match := b } = b := by
      decide
    calc playlist_path_equal stdEnv "/games/foo.zip"
          (some "/games/foo.zip#/rom.bin") cfg
        = playlist_path_equal stdEnv "/games/foo.zip"
            (some "/games/foo.zip#/rom.bin")
            { fuzzy_archive_match := cfg.fuzzy_archive_match } :=
          playlist_path_equal_cfg_fuzzy stdEnv "/games/foo.zip"
            (some "/games/foo.zip#/rom.bin") cfg
            { fuzzy_archive_match := cfg.fuzzy_archive_match } rfl
      _ = cfg.fuzzy_archive_match := hgen cfg.fuzzy_archive_match

/-- C7: after pushing an unlabelled entry (path "a.rom", core path "core1")
into an empty playlist, pushing the same path and core path with label
"Game A" returns true, keeps the store at one entry, and the front entry
afterwards carries label "Game A" (the empty label was backfilled). -/
theorem claim_C7_backfill (env : PathEnv) (pl : Playlist)
    (hidem : ∀ s, env.resolve (env.resolve s) = env.resolve s)
    (hent : pl.entries = [])
    (h1 : (playlist_push env pl entPlain).1 = true) :
    (playlist_push env (playlist_push env pl entPlain).2 entLabelled).1 = true ∧
    (playlist_push env (playlist_push env pl entPlain).2
        entLabelled).2.entries.length = 1 ∧
    ((playlist_push env (playlist_push env pl entPlain).2
        entLabelled).2.entries.headI).label = some "Game A" := by
  obtain ⟨hg1, hg2, hg3⟩ := playlist_push_true_guards env pl entPlain h1
  have hc0 : pl.config.capacity ≠ 0 := by
    intro hc
    have h0 := playlist_push_cap0 env pl entPlain
      (by rw [hent]; intro s hs; simp at hs) hc
    rw [h0] at h1
    simp at h1
  have hr1 := playlist_push_insert_empty env pl entPlain hent hg1 hg2 hg3 hc0
  have hent1 : (playlist_push env pl entPlain).2.entries
      = [pushNewEntry entPlain (pushRealPath env entPlain)
          (pushRealCorePath env entPlain) (coreNameOf env entPlain)] := by
    rw [hr1]
  have hrp : pushRealPath env entLabelled = pushRealPath env entPlain := rfl
  have hrcp : pushRealCorePath env entLabelled = pushRealCorePath env entPlain := rfl
  have hcn : coreNameOf env entLabelled = coreNameOf env entPlain := rfl
  have hm : pushEntryMatch env ((playlist_push env pl entPlain).2).config
      (pushRealPath env entLabelled) (pushRealCorePath env entLabelled) entLabelled
      (pushNewEntry entPlain (pushRealPath env entPlain)
        (pushRealCorePath env entPlain) (coreNameOf env entPlain)) = true := by
    rw [hrp, hrcp]
    exact pushEntryMatch_newEntry env _ _ _ _ entLabelled entPlain
      (pushRealPath_fixed env entPlain hidem) hg2
      (pushRealCorePath_fixed env entPlain hidem) rfl rfl rfl rfl rfl
  have hbf : (backfillEntry entLabelled (pushNewEntry entPlain
      (pushRealPath env entPlain) (pushRealCorePath env entPlain)
      (coreNameOf env entPlain))).2 = true := rfl
  have hg1' : string_is_empty entLabelled.core_path = false := hg1
  have hg2' : (pushRealCorePath env entLabelled == "") = false := by
    rw [hrcp]; exact hg2
  have hg3' : (coreNameOf env entLabelled == "") = false := by
    rw [hcn]; exact hg3
  have hbk := playlist_push_head_backfill env ((playlist_push env pl entPlain).2)
    entLabelled _ [] hent1 hm hbf hg1' hg2' hg3'
  rw [hbk]
  exact ⟨rfl, rfl, rfl⟩

set_option maxRecDepth 100000 in
theorem claim_C7_backfill_witness :
    (playlist_push stdEnv (playlist_push stdEnv emptyPl entPlain).2 entLabelled).1
      = true ∧
    (playlist_push stdEnv (playlist_push stdEnv emptyPl entPlain).2
        entLabelled).2.entries.length = 1 ∧
    ((playlist_push stdEnv (playlist_push stdEnv emptyPl entPlain).2
        entLabelled).2.entries.headI).label = some "Game A" :=
  claim_C7_backfill stdEnv emptyPl (fun s => rfl) rfl (by decide)

set_option maxRecDepth 100000 in
/-- C9 (counterexample): the claimed case-insensitive core-filename
comparison disagrees with playlist_index_is_valid on a stored core path
"/cores/Core.so" queried with "/x/core.so": the code compares the basenames
case-sensitively and answers false, while the claimed behaviour answers
true. -/
theorem claim_C9_counterexample :
    playlist_index_is_valid stdEnv idxPl 0 "a.rom" "/x/core.so" = false ∧
    index_is_valid_claimed stdEnv idxPl 0 "a.rom" "/x/core.so" = true :=
  ⟨by decide, by decide⟩

/-- C9 (amended): playlist_index_is_valid performs no path canonicalization
(it depends on the environment only through the basename function) and
returns true iff the index is in range, the stored content path is exactly
the given path, and the basename of the stored core path is exactly (and in
particular case-sensitively) equal to the basename of the given core
path. -/
theorem claim_C9_amended (env : PathEnv) (pl : Playlist) (idx : Nat)
    (p cp : String) :
    (playlist_index_is_valid env pl idx p cp = true ↔
      ∃ h : idx < pl.entries.length,
        (pl.entries.get ⟨idx, h⟩).path = some p ∧
        env.basename (optStr (pl.entries.get ⟨idx, h⟩).core_path)
          = env.basename cp) ∧
    (∀ env' : PathEnv, env'.basename = env.basename →
      playlist_index_is_valid env' pl idx p cp
        = playlist_index_is_valid env pl idx p cp) := by
  constructor
  · rw [playlist_index_is_valid]
    by_cases h : idx < pl.entries.length
    · rw [dif_pos h]
      dsimp only
      constructor
      · intro hx
        simp only [Bool.and_eq_true, beq_iff_eq] at hx
        exact ⟨h, hx.1, hx.2⟩
      · rintro ⟨h', hx1, hx2⟩
        simp only [Bool.and_eq_true, beq_iff_eq]
        exact ⟨hx1, hx2⟩
    · rw [dif_neg h]
      simp [h]
  · intro env' hb
    rw [playlist_index_is_valid, playlist_index_is_valid, hb]

end RetroPlaylist
